import Mathlib

/-!
Verification of the aggregation logic of `fpl_api_statistics.py`.

The four report routines are shallowly embedded as Lean functions.  The
external HTTP data source is modelled by explicit inputs:

* `ph : Int → List Fixture` stands for `element-summary/{player}` (a player's
  full-season fixture history),
* `picksOf : Int → PicksResponse` stands for `entry/{manager}/event/{gw}/picks`,
* a manager's season history (`entry/{manager}/history`) is a plain list.

Python runtime errors that the source can raise (unbound local `NameError`,
`IndexError` from list indexing, `TypeError` from comparing `None` with an
int) are modelled with `Except String`.  Python's `float` values are modelled
with `ℚ`; machine integers are unbounded in Python, so `Int` is exact.
-/

/-- Python membership test `g in range(s, e+1)` on integers. -/
def inMonth (s e g : Int) : Bool := decide (s ≤ g ∧ g ≤ e)

/-- Python list indexing `l[i]`: negative indices count from the end, and an
out-of-range index raises `IndexError`. -/
def pyIndex {α : Type} (l : List α) (i : Int) : Except String α :=
  let j := if i < 0 then (l.length : Int) + i else i
  if h : 0 ≤ j ∧ j.toNat < l.length then Except.ok (l.get ⟨j.toNat, h.2⟩)
  else Except.error "IndexError: list index out of range"

/-- Python `round(x, 2)` (round half to even at two decimal places). -/
def round2 (x : ℚ) : ℚ :=
  let y := x * 100
  let f : Int := ⌊y⌋
  let r := y - f
  let n : Int :=
    if r < 1/2 then f
    else if r > 1/2 then f + 1
    else if f % 2 = 0 then f else f + 1
  (n : ℚ) / 100

/-- The gameweeks iterated by `range(1, N+1)` in the source. -/
def gwListI (N : Nat) : List Int := (List.range N).map (fun i : Nat => (i : Int) + 1)

instance {ε α : Type} [DecidableEq ε] [DecidableEq α] : DecidableEq (Except ε α) :=
  fun a b =>
    match a, b with
    | Except.error x, Except.error y =>
        if h : x = y then isTrue (by rw [h])
        else isFalse (fun hc => by cases hc; exact h rfl)
    | Except.error _, Except.ok _ => isFalse (fun hc => Except.noConfusion hc)
    | Except.ok _, Except.error _ => isFalse (fun hc => Except.noConfusion hc)
    | Except.ok x, Except.ok y =>
        if h : x = y then isTrue (by rw [h])
        else isFalse (fun hc => by cases hc; exact h rfl)

/-- One pick in a manager's gameweek squad. -/
structure Pick where
  element : Int
  multiplier : Int
  is_captain : Bool
  deriving DecidableEq

/-- The `entry_history` object of a picks response. -/
structure EntryHistory where
  points_on_bench : Int
  event_transfers : Int
  deriving DecidableEq

/-- The response of `entry/{manager}/event/{gw}/picks`. -/
structure PicksResponse where
  picks : List Pick
  entry_history : EntryHistory
  deriving DecidableEq

/-- One entry of a player's fixture history (`element-summary/{player}`). -/
structure Fixture where
  round : Int
  total_points : Int
  goals_scored : Int
  assists : Int
  expected_goals : ℚ
  expected_assists : ℚ
  deriving DecidableEq, Inhabited

/-- The per-team output record of `fetch_captain_bench_transfer`. -/
structure CBTScore where
  points_on_bench_month : Int
  points_on_bench_total : Int
  number_of_transfers_month : Int
  number_of_transfers_total : Int
  captain_points_month : Int
  captain_points_total : Int
  deriving DecidableEq

/-- The zero-initialised score dictionary of `fetch_captain_bench_transfer`. -/
def cbtZero : CBTScore := ⟨0, 0, 0, 0, 0, 0⟩

/-- The captain-lookup loop `for pick in picks: if pick[...]: captain = ...`.
The accumulator is the current value of the Python local `captain`
(`none` = still unbound); the last flagged pick wins. -/
def findCaptain (picks : List Pick) (c0 : Option Int) : Option Int :=
  picks.foldl (fun c p => if p.is_captain then some p.element else c) c0

/-- The body of one gameweek iteration of `fetch_captain_bench_transfer`
once the captain `c` is known: resum the captain's whole fixture history and
add this gameweek's bench points and transfers. -/
def cbtWithCaptain (s e : Int) (hist : List Fixture) (gw : Int)
    (eh : EntryHistory) (sc : CBTScore) : CBTScore :=
  let sc := hist.foldl (fun sc f =>
    let sc := { sc with captain_points_total := sc.captain_points_total + f.total_points }
    if inMonth s e f.round then
      { sc with captain_points_month := sc.captain_points_month + f.total_points }
    else sc) sc
  let sc := { sc with
    points_on_bench_total := sc.points_on_bench_total + eh.points_on_bench,
    number_of_transfers_total := sc.number_of_transfers_total + eh.event_transfers }
  if inMonth s e gw then
    { sc with
      points_on_bench_month := sc.points_on_bench_month + eh.points_on_bench,
      number_of_transfers_month := sc.number_of_transfers_month + eh.event_transfers }
  else sc

/-- One gameweek iteration of `fetch_captain_bench_transfer`.  The Python
local `captain` is threaded through as the first component of the state; if
no pick of this gameweek is flagged and `captain` was never assigned before,
the use of the unbound local raises `NameError`. -/
def cbtStep (s e : Int) (ph : Int → List Fixture) (picksOf : Int → PicksResponse)
    (st : Option Int × CBTScore) (gw : Int) : Except String (Option Int × CBTScore) :=
  match findCaptain (picksOf gw).picks st.1 with
  | none => Except.error "NameError: captain"
  | some c =>
      Except.ok (some c, cbtWithCaptain s e (ph c) gw (picksOf gw).entry_history st.2)

/-- The gameweek loop `for gw in range(1, end_gw_total+1)` of
`fetch_captain_bench_transfer`. -/
def cbtLoop (s e : Int) (ph : Int → List Fixture) (picksOf : Int → PicksResponse)
    (st : Option Int × CBTScore) : List Int → Except String (Option Int × CBTScore)
  | [] => Except.ok st
  | gw :: rest =>
      match cbtStep s e ph picksOf st gw with
      | Except.error msg => Except.error msg
      | Except.ok st2 => cbtLoop s e ph picksOf st2 rest

/-- The per-manager computation of `fetch_captain_bench_transfer`, with the
inherited value `c0` of the Python local `captain` made explicit. -/
def cbtManager (s e : Int) (N : Nat) (ph : Int → List Fixture)
    (picksOf : Int → PicksResponse) (c0 : Option Int) :
    Except String (Option Int × CBTScore) :=
  cbtLoop s e ph picksOf (c0, cbtZero) (gwListI N)

/-- The manager loop of `fetch_captain_bench_transfer`; the Python local
`captain` persists across managers, so its value is threaded through. -/
def cbtRun (s e : Int) (N : Nat) (ph : Int → List Fixture) (c0 : Option Int) :
    List (String × (Int → PicksResponse)) → Except String (List (String × CBTScore))
  | [] => Except.ok []
  | m :: rest =>
      match cbtManager s e N ph m.2 c0 with
      | Except.error msg => Except.error msg
      | Except.ok (c1, sc) =>
          match cbtRun s e N ph c1 rest with
          | Except.error msg => Except.error msg
          | Except.ok out => Except.ok ((m.1, sc) :: out)

/-- `fetch_captain_bench_transfer(start_gw_month, end_gw_month, end_gw_total)`:
each manager is keyed by team name; the data source is `ph`/the per-manager
picks functions. -/
def fetch_captain_bench_transfer (s e : Int) (N : Nat) (ph : Int → List Fixture)
    (managers : List (String × (Int → PicksResponse))) :
    Except String (List (String × CBTScore)) :=
  cbtRun s e N ph none managers

/-- The captain the source selects for a picks list when at least one pick is
flagged: the last flagged pick. -/
def capOfPicks (picks : List Pick) : Int := (findCaptain picks none).getD 0

/-- The captain of gameweek `gw`. -/
def capOf (picksOf : Int → PicksResponse) (gw : Int) : Int :=
  capOfPicks (picksOf gw).picks

/-- All fixture entries the captain loop of `fetch_captain_bench_transfer`
iterates over across the gameweeks `L`: one full season history per gameweek. -/
def capFixtures (ph : Int → List Fixture) (picksOf : Int → PicksResponse)
    (L : List Int) : List Fixture :=
  L.flatMap fun gw => ph (capOf picksOf gw)

/-- One entry of `entry/{manager}/history` as used by
`fetch_coach_of_the_month_and_team_value`. -/
structure CoachEntry where
  event : Int
  points : Int
  value : Int
  deriving DecidableEq

/-- The per-manager output record of `fetch_coach_of_the_month_and_team_value`. -/
structure CoachReport where
  points : Int
  end_team_value : ℚ
  team_value_delta : ℚ
  deriving DecidableEq

/-- The values of the Python locals `start_value` and `end_value`
(`none` = still unbound).  They are function locals, so they persist across
both history entries and managers. -/
structure ValueState where
  start_value : Option ℚ
  end_value : Option ℚ
  deriving DecidableEq

/-- The history loop of `fetch_coach_of_the_month_and_team_value`: sum the
`points` of the in-range entries, capture `value / 10.0` at the range
endpoints. -/
def coachFold (a b : Int) (acc : ValueState × Int) :
    List CoachEntry → ValueState × Int
  | [] => acc
  | x :: xs =>
      if inMonth a b x.event then
        let st1 := if x.event = a then
            { acc.1 with start_value := some ((x.value : ℚ) / 10) } else acc.1
        let st2 := if x.event = b then
            { st1 with end_value := some ((x.value : ℚ) / 10) } else st1
        coachFold a b (st2, acc.2 + x.points) xs
      else coachFold a b acc xs

/-- The per-manager computation of `fetch_coach_of_the_month_and_team_value`.
Building the report reads `end_value` first, then `start_value`; an unbound
local raises `NameError`. -/
def coachStep (a b : Int) (st : ValueState) (hist : List CoachEntry) :
    Except String (ValueState × CoachReport) :=
  let r := coachFold a b (st, 0) hist
  match r.1.end_value with
  | none => Except.error "NameError: end_value"
  | some ev =>
      match r.1.start_value with
      | none => Except.error "NameError: start_value"
      | some sv =>
          Except.ok (r.1, { points := r.2, end_team_value := ev, team_value_delta := ev - sv })

/-- The manager loop of `fetch_coach_of_the_month_and_team_value`, threading
the persisting locals. -/
def coachRun (a b : Int) (st : ValueState) :
    List (String × List CoachEntry) → Except String (List (String × CoachReport))
  | [] => Except.ok []
  | m :: rest =>
      match coachStep a b st m.2 with
      | Except.error msg => Except.error msg
      | Except.ok (st2, r) =>
          match coachRun a b st2 rest with
          | Except.error msg => Except.error msg
          | Except.ok out => Except.ok ((m.1, r) :: out)

/-- `fetch_coach_of_the_month_and_team_value(start_gw, end_gw)` over a list
of managers keyed by manager name, with their history lists as input. -/
def fetch_coach_of_the_month_and_team_value (a b : Int)
    (managers : List (String × List CoachEntry)) :
    Except String (List (String × CoachReport)) :=
  coachRun a b ⟨none, none⟩ managers

/-- Player position category. -/
inductive Position where
  | goalkeeper
  | defender
  | midfielder
  | forward
  deriving DecidableEq

/-- The per-team output record of `position_bench_goals_assists_xg_xa`. -/
structure PosScore where
  goalkeeper_total : Int
  goalkeeper_month : Int
  defender_total : Int
  defender_month : Int
  midfielder_total : Int
  midfielder_month : Int
  forward_total : Int
  forward_month : Int
  bench_total : Int
  bench_month : Int
  goals_total : Int
  goals_month : Int
  assists_total : Int
  assists_month : Int
  expected_goals_total : ℚ
  expected_goals_month : ℚ
  expected_assists_total : ℚ
  expected_assists_month : ℚ
  deriving DecidableEq

/-- The zero-initialised score dictionary of `position_bench_goals_assists_xg_xa`. -/
def posZero : PosScore := ⟨0, 0, 0, 0, 0, 0, 0, 0, 0, 0, 0, 0, 0, 0, 0, 0, 0, 0⟩

/-- `if multiplier == 2: multiplier = 1 if not captain_points_included else multiplier`. -/
def effCaptain (ci : Bool) (m : Int) : Int := if m = 2 then (if ci then m else 1) else m

/-- `scores[team][position]['total'] += x`. -/
def addPosTotal (pos : Position) (x : Int) (sc : PosScore) : PosScore :=
  match pos with
  | Position.goalkeeper => { sc with goalkeeper_total := sc.goalkeeper_total + x }
  | Position.defender => { sc with defender_total := sc.defender_total + x }
  | Position.midfielder => { sc with midfielder_total := sc.midfielder_total + x }
  | Position.forward => { sc with forward_total := sc.forward_total + x }

/-- `scores[team][position]['month'] += x`. -/
def addPosMonth (pos : Position) (x : Int) (sc : PosScore) : PosScore :=
  match pos with
  | Position.goalkeeper => { sc with goalkeeper_month := sc.goalkeeper_month + x }
  | Position.defender => { sc with defender_month := sc.defender_month + x }
  | Position.midfielder => { sc with midfielder_month := sc.midfielder_month + x }
  | Position.forward => { sc with forward_month := sc.forward_month + x }

/-- One pick iteration of `position_bench_goals_assists_xg_xa`: the fixture
record is looked up by positional index `gw - 1` into the player's own
fixture history (`IndexError` if out of range). -/
def posPick (s e : Int) (ci bi : Bool) (posOf : Int → Position)
    (ph : Int → List Fixture) (gw : Int) (sc : PosScore) (p : Pick) :
    Except String PosScore :=
  let position := posOf p.element
  let m := effCaptain ci p.multiplier
  match pyIndex (ph p.element) (gw - 1) with
  | Except.error msg => Except.error msg
  | Except.ok fx =>
      let sc := if m = 0 then
          { sc with
            bench_total := sc.bench_total + fx.total_points,
            bench_month := if inMonth s e gw then sc.bench_month + fx.total_points
              else sc.bench_month }
        else sc
      let m := if m = 0 then (if bi then 1 else m) else m
      let sc := addPosTotal position (fx.total_points * m) sc
      let sc := if m = 0 then sc else
          { sc with
            goals_total := sc.goals_total + fx.goals_scored,
            assists_total := sc.assists_total + fx.assists,
            expected_goals_total := sc.expected_goals_total + fx.expected_goals,
            expected_assists_total := sc.expected_assists_total + fx.expected_assists }
      if inMonth s e gw then
        let sc := addPosMonth position (fx.total_points * m) sc
        if m = 0 then Except.ok sc else
          Except.ok { sc with
            goals_month := sc.goals_month + fx.goals_scored,
            assists_month := sc.assists_month + fx.assists,
            expected_goals_month := sc.expected_goals_month + fx.expected_goals,
            expected_assists_month := sc.expected_assists_month + fx.expected_assists }
      else Except.ok sc

/-- The pick loop `for pick in picks` of `position_bench_goals_assists_xg_xa`. -/
def posPicksLoop (s e : Int) (ci bi : Bool) (posOf : Int → Position)
    (ph : Int → List Fixture) (gw : Int) (sc : PosScore) :
    List Pick → Except String PosScore
  | [] => Except.ok sc
  | p :: rest =>
      match posPick s e ci bi posOf ph gw sc p with
      | Except.error msg => Except.error msg
      | Except.ok sc2 => posPicksLoop s e ci bi posOf ph gw sc2 rest

/-- The gameweek loop of `position_bench_goals_assists_xg_xa`. -/
def posGwLoop (s e : Int) (ci bi : Bool) (posOf : Int → Position)
    (ph : Int → List Fixture) (picksOf : Int → PicksResponse) (sc : PosScore) :
    List Int → Except String PosScore
  | [] => Except.ok sc
  | gw :: rest =>
      match posPicksLoop s e ci bi posOf ph gw sc (picksOf gw).picks with
      | Except.error msg => Except.error msg
      | Except.ok sc2 => posGwLoop s e ci bi posOf ph picksOf sc2 rest

/-- The final rounding of the expected-goal/assist accumulators
(`round(..., 2)` on the four fields). -/
def roundFinal (sc : PosScore) : PosScore :=
  { sc with
    expected_goals_total := round2 sc.expected_goals_total,
    expected_goals_month := round2 sc.expected_goals_month,
    expected_assists_total := round2 sc.expected_assists_total,
    expected_assists_month := round2 sc.expected_assists_month }

/-- The per-manager computation of `position_bench_goals_assists_xg_xa`. -/
def posManager (s e : Int) (N : Nat) (ci bi : Bool) (posOf : Int → Position)
    (ph : Int → List Fixture) (picksOf : Int → PicksResponse) :
    Except String PosScore :=
  match posGwLoop s e ci bi posOf ph picksOf posZero (gwListI N) with
  | Except.error msg => Except.error msg
  | Except.ok sc => Except.ok (roundFinal sc)

/-- `position_bench_goals_assists_xg_xa(start_gw_month, end_gw_month,
end_gw_total, captain_points_included, bench_included)` over a list of
managers keyed by team name. -/
def position_bench_goals_assists_xg_xa (s e : Int) (N : Nat) (ci bi : Bool)
    (posOf : Int → Position) (ph : Int → List Fixture) :
    List (String × (Int → PicksResponse)) → Except String (List (String × PosScore))
  | [] => Except.ok []
  | m :: rest =>
      match posManager s e N ci bi posOf ph m.2 with
      | Except.error msg => Except.error msg
      | Except.ok sc =>
          match position_bench_goals_assists_xg_xa s e N ci bi posOf ph rest with
          | Except.error msg => Except.error msg
          | Except.ok out => Except.ok ((m.1, sc) :: out)

/-- The fixture record the source indexes for pick `p` in gameweek `gw`
(meaningful when the index is in range). -/
def fxAt (ph : Int → List Fixture) (el : Int) (gw : Int) : Fixture :=
  (ph el).getD (gw - 1).toNat default

/-- The effective multiplier a pick ends up with in
`position_bench_goals_assists_xg_xa` (captain adjustment, then bench
promotion). -/
def effm (ci bi : Bool) (m : Int) : Int :=
  let m1 := effCaptain ci m
  if m1 = 0 then (if bi then 1 else m1) else m1

/-- The contribution of pick `p` in gameweek `gw` to the points accumulator
of position `pos`. -/
def posPts (ci bi : Bool) (posOf : Int → Position) (ph : Int → List Fixture)
    (gw : Int) (p : Pick) (pos : Position) : Int :=
  if posOf p.element = pos then (fxAt ph p.element gw).total_points * effm ci bi p.multiplier
  else 0

/-- The contribution of pick `p` in gameweek `gw` to the bench accumulator. -/
def benchPts (ci : Bool) (ph : Int → List Fixture) (gw : Int) (p : Pick) : Int :=
  if effCaptain ci p.multiplier = 0 then (fxAt ph p.element gw).total_points else 0

/-- The contribution of pick `p` in gameweek `gw` to the goals accumulator. -/
def statGoals (ci bi : Bool) (ph : Int → List Fixture) (gw : Int) (p : Pick) : Int :=
  if effm ci bi p.multiplier = 0 then 0 else (fxAt ph p.element gw).goals_scored

/-- The contribution of pick `p` in gameweek `gw` to the assists accumulator. -/
def statAssists (ci bi : Bool) (ph : Int → List Fixture) (gw : Int) (p : Pick) : Int :=
  if effm ci bi p.multiplier = 0 then 0 else (fxAt ph p.element gw).assists

/-- The contribution of pick `p` in gameweek `gw` to the expected-goals
accumulator. -/
def statXg (ci bi : Bool) (ph : Int → List Fixture) (gw : Int) (p : Pick) : ℚ :=
  if effm ci bi p.multiplier = 0 then 0 else (fxAt ph p.element gw).expected_goals

/-- The contribution of pick `p` in gameweek `gw` to the expected-assists
accumulator. -/
def statXa (ci bi : Bool) (ph : Int → List Fixture) (gw : Int) (p : Pick) : ℚ :=
  if effm ci bi p.multiplier = 0 then 0 else (fxAt ph p.element gw).expected_assists

/-- Per-gameweek sum of positional point contributions. -/
def gwPosPts (ci bi : Bool) (posOf : Int → Position) (ph : Int → List Fixture)
    (picksOf : Int → PicksResponse) (gw : Int) (pos : Position) : Int :=
  ((picksOf gw).picks.map (fun p => posPts ci bi posOf ph gw p pos)).sum

/-- Per-gameweek sum of bench point contributions. -/
def gwBenchPts (ci : Bool) (ph : Int → List Fixture)
    (picksOf : Int → PicksResponse) (gw : Int) : Int :=
  ((picksOf gw).picks.map (fun p => benchPts ci ph gw p)).sum

/-- Per-gameweek sum of goal contributions. -/
def gwGoals (ci bi : Bool) (ph : Int → List Fixture)
    (picksOf : Int → PicksResponse) (gw : Int) : Int :=
  ((picksOf gw).picks.map (fun p => statGoals ci bi ph gw p)).sum

/-- Per-gameweek sum of assist contributions. -/
def gwAssists (ci bi : Bool) (ph : Int → List Fixture)
    (picksOf : Int → PicksResponse) (gw : Int) : Int :=
  ((picksOf gw).picks.map (fun p => statAssists ci bi ph gw p)).sum

/-- Per-gameweek sum of expected-goal contributions. -/
def gwXg (ci bi : Bool) (ph : Int → List Fixture)
    (picksOf : Int → PicksResponse) (gw : Int) : ℚ :=
  ((picksOf gw).picks.map (fun p => statXg ci bi ph gw p)).sum

/-- Per-gameweek sum of expected-assist contributions. -/
def gwXa (ci bi : Bool) (ph : Int → List Fixture)
    (picksOf : Int → PicksResponse) (gw : Int) : ℚ :=
  ((picksOf gw).picks.map (fun p => statXa ci bi ph gw p)).sum

/-- One entry of `entry/{manager}/history` as used by `least_and_most_points`. -/
structure MMEntry where
  event : Int
  total_points : Int
  deriving DecidableEq

/-- The `manager_scores` dictionary of `least_and_most_points`
(`None`-initialised). -/
structure MMScores where
  min_points_total : Option Int
  max_points_total : Option Int
  min_points_month : Option Int
  max_points_month : Option Int
  deriving DecidableEq

/-- One history-entry iteration of `least_and_most_points`.  Comparing an int
with a still-`None` bound raises `TypeError`. -/
def mmStep (s e : Int) (st : MMScores) (x : MMEntry) : Except String MMScores :=
  let st := if x.event = 1 then
      { st with min_points_total := some x.total_points,
                max_points_total := some x.total_points } else st
  let st := if x.event = s then
      { st with min_points_month := some x.total_points,
                max_points_month := some x.total_points } else st
  if x.event > 1 then
    match st.min_points_total, st.max_points_total with
    | some mn, some mx =>
        let st := { st with min_points_total := some (min mn x.total_points),
                            max_points_total := some (max mx x.total_points) }
        if inMonth s e x.event then
          match st.min_points_month, st.max_points_month with
          | some mn2, some mx2 =>
              Except.ok { st with
                min_points_month := some (min mn2 x.total_points),
                max_points_month := some (max mx2 x.total_points) }
          | _, _ => Except.error "TypeError: comparison with None"
        else Except.ok st
    | _, _ => Except.error "TypeError: comparison with None"
  else Except.ok st

/-- The history loop of `least_and_most_points`. -/
def mmRun (s e : Int) (st : MMScores) : List MMEntry → Except String MMScores
  | [] => Except.ok st
  | x :: xs =>
      match mmStep s e st x with
      | Except.error msg => Except.error msg
      | Except.ok st2 => mmRun s e st2 xs

/-- The per-manager computation of `least_and_most_points`. -/
def leastMostManager (s e : Int) (hist : List MMEntry) : Except String MMScores :=
  mmRun s e ⟨none, none, none, none⟩ hist

/-- `least_and_most_points(start_gw_month, end_gw_month)` over a list of
managers keyed by team name. -/
def least_and_most_points (s e : Int) :
    List (String × List MMEntry) → Except String (List (String × MMScores))
  | [] => Except.ok []
  | m :: rest =>
      match leastMostManager s e m.2 with
      | Except.error msg => Except.error msg
      | Except.ok sc =>
          match least_and_most_points s e rest with
          | Except.error msg => Except.error msg
          | Except.ok out => Except.ok ((m.1, sc) :: out)

/-- A history whose entries carry events `k, k+1, ...` in order, with the
given `total_points` values. -/
def mkHistFrom (k : Int) : List Int → List MMEntry
  | [] => []
  | x :: xs => ⟨k, x⟩ :: mkHistFrom (k + 1) xs

/-- A history whose entries are gameweeks `1..n` in increasing order. -/
def mkHist (tps : List Int) : List MMEntry := mkHistFrom 1 tps

/-- The `total_points` of the history entries whose event lies in `[s, e]`. -/
def windowVals (s e : Int) (hist : List MMEntry) : List Int :=
  (hist.filter fun x => inMonth s e x.event).map (fun x => x.total_points)

/-- Minimum of a list, `none` for the empty list. -/
def foldMin : List Int → Option Int
  | [] => none
  | x :: xs => some (xs.foldl min x)

/-- Maximum of a list, `none` for the empty list. -/
def foldMax : List Int → Option Int
  | [] => none
  | x :: xs => some (xs.foldl max x)

/-- Concrete fixture history: every player has two fixtures worth 15 and 25
points (season total 40). -/
def w1ph : Int → List Fixture := fun _ => [⟨1, 15, 0, 0, 0, 0⟩, ⟨2, 25, 0, 0, 0, 0⟩]

/-- Concrete picks: player 5 is captain in every gameweek. -/
def w1picks : Int → PicksResponse := fun _ => ⟨[⟨5, 2, true⟩], ⟨0, 0⟩⟩

/-- Concrete position directory: everyone is a midfielder. -/
def wPosOf : Int → Position := fun _ => Position.midfielder

/-- Concrete three-entry manager history for the value/points report. -/
def w2hist : List CoachEntry := [⟨1, 10, 1000⟩, ⟨2, 20, 1010⟩, ⟨3, 30, 1020⟩]

/-- Concrete history of a first manager holding entries at gameweeks 1 and 2. -/
def c7m1 : List CoachEntry := [⟨1, 3, 1000⟩, ⟨2, 4, 1010⟩]

/-- Concrete history of a second manager missing the entry at gameweek 2. -/
def c7m2 : List CoachEntry := [⟨1, 5, 2000⟩]

/-- Concrete fixture history: player 7 scored 10 points in round 1, nobody
else has any history. -/
def c8ph : Int → List Fixture := fun el => if el = 7 then [⟨1, 10, 0, 0, 0, 0⟩] else []

/-- Concrete picks: player 7 is captain in gameweek 1; no pick is flagged in
any later gameweek. -/
def c8picksOf : Int → PicksResponse :=
  fun gw => if gw = 1 then ⟨[⟨7, 2, true⟩], ⟨0, 0⟩⟩ else ⟨[⟨8, 1, false⟩], ⟨0, 0⟩⟩

/-- Concrete picks with two flagged captains (players 1 and 2). -/
def c10picksOf : Int → PicksResponse :=
  fun _ => ⟨[⟨1, 1, true⟩, ⟨2, 1, true⟩], ⟨0, 0⟩⟩

/-- Concrete position directory: everyone is a goalkeeper. -/
def c6posOf : Int → Position := fun _ => Position.goalkeeper

/-- Concrete fixture history: player 1 scored 3 points, everyone else 2. -/
def c6ph : Int → List Fixture :=
  fun el => if el = 1 then [⟨1, 3, 0, 0, 0, 0⟩] else [⟨1, 2, 0, 0, 0, 0⟩]

/-- Concrete picks: player 1 plays (multiplier 1), player 2 is benched
(multiplier 0). -/
def c6picksOf : Int → PicksResponse := fun _ => ⟨[⟨1, 1, false⟩, ⟨2, 0, false⟩], ⟨0, 0⟩⟩

/-- The positional report output on the `c6` inputs. -/
def c6score : PosScore := ⟨3, 3, 0, 0, 0, 0, 0, 0, 2, 2, 0, 0, 0, 0, 0, 0, 0, 0⟩

/-- Concrete fixture history: empty for every player. -/
def c9ph : Int → List Fixture := fun _ => []

/-- Concrete picks containing a single unflagged pick of player 1. -/
def c9picksOf : Int → PicksResponse := fun _ => ⟨[⟨1, 1, false⟩], ⟨0, 0⟩⟩

/-- Concrete picks with a single unflagged pick of player 8. -/
def c8nocap : Int → PicksResponse := fun _ => ⟨[⟨8, 1, false⟩], ⟨0, 0⟩⟩

/-- The per-pick accumulator update on the C3 witness inputs. -/
def wC3expected : PosScore := ⟨0, 0, 0, 0, 15, 15, 0, 0, 15, 15, 0, 0, 0, 0, 0, 0, 0, 0⟩

theorem findCaptain_no_flag (picks : List Pick) (c0 : Option Int)
    (h : ∀ p ∈ picks, p.is_captain = false) : findCaptain picks c0 = c0 := by
  induction picks generalizing c0 with
  | nil => rfl
  | cons p ps ih =>
      have hp := h p (List.mem_cons_self _ _)
      simp only [findCaptain, List.foldl_cons, hp, if_neg (by simp [hp] : ¬p.is_captain = true)]
      exact ih c0 (fun q hq => h q (List.mem_cons_of_mem _ hq))

theorem findCaptain_flag (picks : List Pick) (c0 : Option Int)
    (h : ∃ p ∈ picks, p.is_captain = true) :
    findCaptain picks c0 = some (capOfPicks picks) := by
  induction picks generalizing c0 with
  | nil => simp at h
  | cons p ps ih =>
      by_cases hps : ∃ q ∈ ps, q.is_captain = true
      · have h1 : findCaptain (p :: ps) c0 =
            findCaptain ps (if p.is_captain then some p.element else c0) := rfl
        have h2 : findCaptain (p :: ps) none =
            findCaptain ps (if p.is_captain then some p.element else none) := rfl
        rw [capOfPicks, h2, ih _ hps, h1, ih _ hps]
        simp [capOfPicks]
      · push_neg at hps
        rcases h with ⟨q, hq, hqc⟩
        rcases List.mem_cons.mp hq with rfl | hq2
        · have h1 : findCaptain (q :: ps) c0 = findCaptain ps (some q.element) := by
            simp [findCaptain, hqc]
          have h2 : findCaptain (q :: ps) none = findCaptain ps (some q.element) := by
            simp [findCaptain, hqc]
          have h3 := findCaptain_no_flag ps (some q.element)
            (fun r hr => by simpa using hps r hr)
          rw [capOfPicks, h2, h3, h1, h3]
          rfl
        · exact absurd (hps q hq2) (by simp [hqc])

theorem capFold_eq (s e : Int) (hist : List Fixture) (sc : CBTScore) :
    hist.foldl (fun sc f =>
      let sc := { sc with captain_points_total := sc.captain_points_total + f.total_points }
      if inMonth s e f.round then
        { sc with captain_points_month := sc.captain_points_month + f.total_points }
      else sc) sc =
    { sc with
      captain_points_total :=
        sc.captain_points_total + (hist.map (fun f => f.total_points)).sum,
      captain_points_month :=
        sc.captain_points_month +
          ((hist.filter fun f => inMonth s e f.round).map (fun f => f.total_points)).sum } := by
  induction hist generalizing sc with
  | nil => cases sc; simp
  | cons f fs ih =>
      simp only [List.foldl_cons]
      by_cases hr : inMonth s e f.round
      · rw [if_pos hr, ih]
        cases sc
        simp [hr, List.filter_cons]
        constructor <;> ring
      · rw [if_neg hr, ih]
        cases sc
        simp [hr, List.filter_cons]
        ring

theorem cbtWithCaptain_eq (s e : Int) (hist : List Fixture) (gw : Int)
    (eh : EntryHistory) (sc : CBTScore) :
    cbtWithCaptain s e hist gw eh sc =
    { points_on_bench_month :=
        sc.points_on_bench_month + (if inMonth s e gw then eh.points_on_bench else 0),
      points_on_bench_total := sc.points_on_bench_total + eh.points_on_bench,
      number_of_transfers_month :=
        sc.number_of_transfers_month + (if inMonth s e gw then eh.event_transfers else 0),
      number_of_transfers_total := sc.number_of_transfers_total + eh.event_transfers,
      captain_points_month :=
        sc.captain_points_month +
          ((hist.filter fun f => inMonth s e f.round).map (fun f => f.total_points)).sum,
      captain_points_total :=
        sc.captain_points_total + (hist.map (fun f => f.total_points)).sum } := by
  unfold cbtWithCaptain
  rw [capFold_eq]
  by_cases hr : inMonth s e gw
  · cases sc; simp [hr]
  · cases sc; simp [hr]

/-- Closed form of the gameweek loop of `fetch_captain_bench_transfer`, under
the hypothesis that every iterated gameweek has a flagged captain. -/
theorem cbtLoop_eq (s e : Int) (ph : Int → List Fixture)
    (picksOf : Int → PicksResponse) (L : List Int) :
    ∀ (c0 : Option Int) (sc : CBTScore),
    (∀ gw ∈ L, ∃ p ∈ (picksOf gw).picks, p.is_captain = true) →
    cbtLoop s e ph picksOf (c0, sc) L = Except.ok
      (L.foldl (fun c gw => findCaptain (picksOf gw).picks c) c0,
       { points_on_bench_month :=
           sc.points_on_bench_month +
             ((L.filter fun gw => inMonth s e gw).map
               (fun gw => (picksOf gw).entry_history.points_on_bench)).sum,
         points_on_bench_total :=
           sc.points_on_bench_total +
             (L.map fun gw => (picksOf gw).entry_history.points_on_bench).sum,
         number_of_transfers_month :=
           sc.number_of_transfers_month +
             ((L.filter fun gw => inMonth s e gw).map
               (fun gw => (picksOf gw).entry_history.event_transfers)).sum,
         number_of_transfers_total :=
           sc.number_of_transfers_total +
             (L.map fun gw => (picksOf gw).entry_history.event_transfers).sum,
         captain_points_month :=
           sc.captain_points_month +
             (((capFixtures ph picksOf L).filter fun f => inMonth s e f.round).map
               (fun f => f.total_points)).sum,
         captain_points_total :=
           sc.captain_points_total +
             ((capFixtures ph picksOf L).map (fun f => f.total_points)).sum }) := by
  induction L with
  | nil =>
      intro c0 sc _
      simp only [cbtLoop, capFixtures, List.flatMap_nil, List.filter_nil, List.map_nil,
        List.sum_nil, List.foldl_nil, add_zero]
  | cons gw rest ih =>
      intro c0 sc h
      have hcap : ∃ p ∈ (picksOf gw).picks, p.is_captain = true :=
        h gw (List.mem_cons_self _ _)
      simp only [cbtLoop, cbtStep, findCaptain_flag _ _ hcap]
      rw [cbtWithCaptain_eq]
      rw [ih _ _ (fun g hg => h g (List.mem_cons_of_mem _ hg))]
      have hfold : (gw :: rest).foldl (fun c g => findCaptain (picksOf g).picks c) c0 =
          rest.foldl (fun c g => findCaptain (picksOf g).picks c)
            (findCaptain (picksOf gw).picks c0) := rfl
      rw [hfold, findCaptain_flag _ _ hcap]
      have hcapfix : capFixtures ph picksOf (gw :: rest) =
          ph (capOf picksOf gw) ++ capFixtures ph picksOf rest := by
        simp [capFixtures]
      simp only [Except.ok.injEq, Prod.mk.injEq, CBTScore.mk.injEq]
      refine ⟨trivial, ?_, ?_, ?_, ?_, ?_, ?_⟩
      · by_cases hr : inMonth s e gw <;>
          simp [List.filter_cons, hr, add_assoc]
      · simp [add_assoc]
      · by_cases hr : inMonth s e gw <;>
          simp [List.filter_cons, hr, add_assoc]
      · simp [add_assoc]
      · simp [hcapfix, capOf, List.filter_append, add_assoc]
      · simp [hcapfix, capOf, add_assoc]

theorem sum_map_bind {α β : Type} (L : List α) (g : α → List β) (f : β → Int) :
    (((L.flatMap g).map f).sum) = (L.map fun a => ((g a).map f).sum).sum := by
  induction L with
  | nil => rfl
  | cons a l ih => simp [List.flatMap_cons, ih]

theorem pyIndex_ok {α : Type} [Inhabited α] (l : List α) (i : Int)
    (h0 : 0 ≤ i) (h : i.toNat < l.length) :
    pyIndex l i = Except.ok (l.getD i.toNat default) := by
  have hneg : ¬ i < 0 := not_lt.mpr h0
  simp only [pyIndex, hneg, if_false]
  rw [dif_pos ⟨h0, h⟩]
  simp [List.getD_eq_getElem?_getD, List.getElem?_eq_getElem h, List.get_eq_getElem]

theorem posPick_ok (s e : Int) (ci bi : Bool) (posOf : Int → Position)
    (ph : Int → List Fixture) (gw : Int) (sc : PosScore) (p : Pick)
    (h0 : 0 ≤ gw - 1) (h : (gw - 1).toNat < (ph p.element).length) :
    posPick s e ci bi posOf ph gw sc p = Except.ok
      { goalkeeper_total := sc.goalkeeper_total + posPts ci bi posOf ph gw p Position.goalkeeper,
        goalkeeper_month := sc.goalkeeper_month +
          (if inMonth s e gw then posPts ci bi posOf ph gw p Position.goalkeeper else 0),
        defender_total := sc.defender_total + posPts ci bi posOf ph gw p Position.defender,
        defender_month := sc.defender_month +
          (if inMonth s e gw then posPts ci bi posOf ph gw p Position.defender else 0),
        midfielder_total := sc.midfielder_total + posPts ci bi posOf ph gw p Position.midfielder,
        midfielder_month := sc.midfielder_month +
          (if inMonth s e gw then posPts ci bi posOf ph gw p Position.midfielder else 0),
        forward_total := sc.forward_total + posPts ci bi posOf ph gw p Position.forward,
        forward_month := sc.forward_month +
          (if inMonth s e gw then posPts ci bi posOf ph gw p Position.forward else 0),
        bench_total := sc.bench_total + benchPts ci ph gw p,
        bench_month := sc.bench_month + (if inMonth s e gw then benchPts ci ph gw p else 0),
        goals_total := sc.goals_total + statGoals ci bi ph gw p,
        goals_month := sc.goals_month + (if inMonth s e gw then statGoals ci bi ph gw p else 0),
        assists_total := sc.assists_total + statAssists ci bi ph gw p,
        assists_month := sc.assists_month +
          (if inMonth s e gw then statAssists ci bi ph gw p else 0),
        expected_goals_total := sc.expected_goals_total + statXg ci bi ph gw p,
        expected_goals_month := sc.expected_goals_month +
          (if inMonth s e gw then statXg ci bi ph gw p else 0),
        expected_assists_total := sc.expected_assists_total + statXa ci bi ph gw p,
        expected_assists_month := sc.expected_assists_month +
          (if inMonth s e gw then statXa ci bi ph gw p else 0) } := by
  have hidx := pyIndex_ok (ph p.element) (gw - 1) h0 h
  have hfx : (ph p.element).getD (gw - 1).toNat default = fxAt ph p.element gw := rfl
  rw [hfx] at hidx
  simp only [posPick, hidx]
  by_cases hm : effCaptain ci p.multiplier = 0 <;>
    by_cases hbi : bi <;>
    by_cases hr : inMonth s e gw <;>
    cases hpos : posOf p.element <;>
    simp_all [posPts, benchPts, statGoals, statAssists, statXg, statXa, effm,
      addPosTotal, addPosMonth]

theorem mem_gwListI {N : Nat} {gw : Int} (h : gw ∈ gwListI N) : 1 ≤ gw ∧ gw ≤ (N : Int) := by
  simp only [gwListI, List.mem_map, List.mem_range] at h
  obtain ⟨i, hi, hgw⟩ := h
  omega

theorem posPicksLoop_eq (s e : Int) (ci bi : Bool) (posOf : Int → Position)
    (ph : Int → List Fixture) (gw : Int) (picks : List Pick) (h0 : 0 ≤ gw - 1) :
    ∀ sc : PosScore, (∀ p ∈ picks, (gw - 1).toNat < (ph p.element).length) →
    posPicksLoop s e ci bi posOf ph gw sc picks = Except.ok
      { goalkeeper_total := sc.goalkeeper_total +
          (picks.map fun p => posPts ci bi posOf ph gw p Position.goalkeeper).sum,
        goalkeeper_month := sc.goalkeeper_month + (if inMonth s e gw then
          (picks.map fun p => posPts ci bi posOf ph gw p Position.goalkeeper).sum else 0),
        defender_total := sc.defender_total +
          (picks.map fun p => posPts ci bi posOf ph gw p Position.defender).sum,
        defender_month := sc.defender_month + (if inMonth s e gw then
          (picks.map fun p => posPts ci bi posOf ph gw p Position.defender).sum else 0),
        midfielder_total := sc.midfielder_total +
          (picks.map fun p => posPts ci bi posOf ph gw p Position.midfielder).sum,
        midfielder_month := sc.midfielder_month + (if inMonth s e gw then
          (picks.map fun p => posPts ci bi posOf ph gw p Position.midfielder).sum else 0),
        forward_total := sc.forward_total +
          (picks.map fun p => posPts ci bi posOf ph gw p Position.forward).sum,
        forward_month := sc.forward_month + (if inMonth s e gw then
          (picks.map fun p => posPts ci bi posOf ph gw p Position.forward).sum else 0),
        bench_total := sc.bench_total + (picks.map fun p => benchPts ci ph gw p).sum,
        bench_month := sc.bench_month + (if inMonth s e gw then
          (picks.map fun p => benchPts ci ph gw p).sum else 0),
        goals_total := sc.goals_total + (picks.map fun p => statGoals ci bi ph gw p).sum,
        goals_month := sc.goals_month + (if inMonth s e gw then
          (picks.map fun p => statGoals ci bi ph gw p).sum else 0),
        assists_total := sc.assists_total + (picks.map fun p => statAssists ci bi ph gw p).sum,
        assists_month := sc.assists_month + (if inMonth s e gw then
          (picks.map fun p => statAssists ci bi ph gw p).sum else 0),
        expected_goals_total := sc.expected_goals_total +
          (picks.map fun p => statXg ci bi ph gw p).sum,
        expected_goals_month := sc.expected_goals_month + (if inMonth s e gw then
          (picks.map fun p => statXg ci bi ph gw p).sum else 0),
        expected_assists_total := sc.expected_assists_total +
          (picks.map fun p => statXa ci bi ph gw p).sum,
        expected_assists_month := sc.expected_assists_month + (if inMonth s e gw then
          (picks.map fun p => statXa ci bi ph gw p).sum else 0) } := by
  induction picks with
  | nil =>
      intro sc _
      cases sc
      simp [posPicksLoop]
  | cons p rest ih =>
      intro sc hlen
      simp only [posPicksLoop,
        posPick_ok s e ci bi posOf ph gw sc p h0 (hlen p (List.mem_cons_self _ _))]
      rw [ih _ (fun q hq => hlen q (List.mem_cons_of_mem _ hq))]
      by_cases hr : inMonth s e gw <;>
        simp [hr, add_assoc]

theorem posGwLoop_eq (s e : Int) (ci bi : Bool) (posOf : Int → Position)
    (ph : Int → List Fixture) (picksOf : Int → PicksResponse) (L : List Int) :
    ∀ sc : PosScore, (∀ gw ∈ L, 0 ≤ gw - 1) →
    (∀ gw ∈ L, ∀ p ∈ (picksOf gw).picks, (gw - 1).toNat < (ph p.element).length) →
    posGwLoop s e ci bi posOf ph picksOf sc L = Except.ok
      { goalkeeper_total := sc.goalkeeper_total +
          (L.map fun gw => gwPosPts ci bi posOf ph picksOf gw Position.goalkeeper).sum,
        goalkeeper_month := sc.goalkeeper_month + ((L.filter fun gw => inMonth s e gw).map
          fun gw => gwPosPts ci bi posOf ph picksOf gw Position.goalkeeper).sum,
        defender_total := sc.defender_total +
          (L.map fun gw => gwPosPts ci bi posOf ph picksOf gw Position.defender).sum,
        defender_month := sc.defender_month + ((L.filter fun gw => inMonth s e gw).map
          fun gw => gwPosPts ci bi posOf ph picksOf gw Position.defender).sum,
        midfielder_total := sc.midfielder_total +
          (L.map fun gw => gwPosPts ci bi posOf ph picksOf gw Position.midfielder).sum,
        midfielder_month := sc.midfielder_month + ((L.filter fun gw => inMonth s e gw).map
          fun gw => gwPosPts ci bi posOf ph picksOf gw Position.midfielder).sum,
        forward_total := sc.forward_total +
          (L.map fun gw => gwPosPts ci bi posOf ph picksOf gw Position.forward).sum,
        forward_month := sc.forward_month + ((L.filter fun gw => inMonth s e gw).map
          fun gw => gwPosPts ci bi posOf ph picksOf gw Position.forward).sum,
        bench_total := sc.bench_total + (L.map fun gw => gwBenchPts ci ph picksOf gw).sum,
        bench_month := sc.bench_month + ((L.filter fun gw => inMonth s e gw).map
          fun gw => gwBenchPts ci ph picksOf gw).sum,
        goals_total := sc.goals_total + (L.map fun gw => gwGoals ci bi ph picksOf gw).sum,
        goals_month := sc.goals_month + ((L.filter fun gw => inMonth s e gw).map
          fun gw => gwGoals ci bi ph picksOf gw).sum,
        assists_total := sc.assists_total + (L.map fun gw => gwAssists ci bi ph picksOf gw).sum,
        assists_month := sc.assists_month + ((L.filter fun gw => inMonth s e gw).map
          fun gw => gwAssists ci bi ph picksOf gw).sum,
        expected_goals_total := sc.expected_goals_total +
          (L.map fun gw => gwXg ci bi ph picksOf gw).sum,
        expected_goals_month := sc.expected_goals_month +
          ((L.filter fun gw => inMonth s e gw).map fun gw => gwXg ci bi ph picksOf gw).sum,
        expected_assists_total := sc.expected_assists_total +
          (L.map fun gw => gwXa ci bi ph picksOf gw).sum,
        expected_assists_month := sc.expected_assists_month +
          ((L.filter fun gw => inMonth s e gw).map fun gw => gwXa ci bi ph picksOf gw).sum } := by
  induction L with
  | nil =>
      intro sc _ _
      cases sc
      simp [posGwLoop]
  | cons gw rest ih =>
      intro sc hpos hlen
      simp only [posGwLoop,
        posPicksLoop_eq s e ci bi posOf ph gw (picksOf gw).picks
          (hpos gw (List.mem_cons_self _ _)) sc (hlen gw (List.mem_cons_self _ _))]
      rw [ih _ (fun g hg => hpos g (List.mem_cons_of_mem _ hg))
        (fun g hg => hlen g (List.mem_cons_of_mem _ hg))]
      by_cases hr : inMonth s e gw <;>
        simp [hr, List.filter_cons, add_assoc, gwPosPts, gwBenchPts, gwGoals,
          gwAssists, gwXg, gwXa]

theorem posManager_eq (s e : Int) (N : Nat) (ci bi : Bool) (posOf : Int → Position)
    (ph : Int → List Fixture) (picksOf : Int → PicksResponse)
    (hlen : ∀ gw ∈ gwListI N, ∀ p ∈ (picksOf gw).picks,
      (gw - 1).toNat < (ph p.element).length) :
    posManager s e N ci bi posOf ph picksOf = Except.ok (roundFinal
      { goalkeeper_total :=
          ((gwListI N).map fun gw => gwPosPts ci bi posOf ph picksOf gw Position.goalkeeper).sum,
        goalkeeper_month := (((gwListI N).filter fun gw => inMonth s e gw).map
          fun gw => gwPosPts ci bi posOf ph picksOf gw Position.goalkeeper).sum,
        defender_total :=
          ((gwListI N).map fun gw => gwPosPts ci bi posOf ph picksOf gw Position.defender).sum,
        defender_month := (((gwListI N).filter fun gw => inMonth s e gw).map
          fun gw => gwPosPts ci bi posOf ph picksOf gw Position.defender).sum,
        midfielder_total :=
          ((gwListI N).map fun gw => gwPosPts ci bi posOf ph picksOf gw Position.midfielder).sum,
        midfielder_month := (((gwListI N).filter fun gw => inMonth s e gw).map
          fun gw => gwPosPts ci bi posOf ph picksOf gw Position.midfielder).sum,
        forward_total :=
          ((gwListI N).map fun gw => gwPosPts ci bi posOf ph picksOf gw Position.forward).sum,
        forward_month := (((gwListI N).filter fun gw => inMonth s e gw).map
          fun gw => gwPosPts ci bi posOf ph picksOf gw Position.forward).sum,
        bench_total := ((gwListI N).map fun gw => gwBenchPts ci ph picksOf gw).sum,
        bench_month := (((gwListI N).filter fun gw => inMonth s e gw).map
          fun gw => gwBenchPts ci ph picksOf gw).sum,
        goals_total := ((gwListI N).map fun gw => gwGoals ci bi ph picksOf gw).sum,
        goals_month := (((gwListI N).filter fun gw => inMonth s e gw).map
          fun gw => gwGoals ci bi ph picksOf gw).sum,
        assists_total := ((gwListI N).map fun gw => gwAssists ci bi ph picksOf gw).sum,
        assists_month := (((gwListI N).filter fun gw => inMonth s e gw).map
          fun gw => gwAssists ci bi ph picksOf gw).sum,
        expected_goals_total := ((gwListI N).map fun gw => gwXg ci bi ph picksOf gw).sum,
        expected_goals_month := (((gwListI N).filter fun gw => inMonth s e gw).map
          fun gw => gwXg ci bi ph picksOf gw).sum,
        expected_assists_total := ((gwListI N).map fun gw => gwXa ci bi ph picksOf gw).sum,
        expected_assists_month := (((gwListI N).filter fun gw => inMonth s e gw).map
          fun gw => gwXa ci bi ph picksOf gw).sum }) := by
  have h0 : ∀ gw ∈ gwListI N, 0 ≤ gw - 1 := by
    intro gw hg
    have := mem_gwListI hg
    omega
  simp only [posManager,
    posGwLoop_eq s e ci bi posOf ph picksOf (gwListI N) posZero h0 hlen]
  simp [posZero]

theorem coachFold_points (a b : Int) (hist : List CoachEntry) :
    ∀ (st : ValueState) (t0 : Int),
    (coachFold a b (st, t0) hist).2 =
      t0 + ((hist.filter fun x => inMonth a b x.event).map (fun x => x.points)).sum := by
  induction hist with
  | nil => intro st t0; simp [coachFold]
  | cons x xs ih =>
      intro st t0
      by_cases hx : inMonth a b x.event <;>
        simp only [coachFold, hx, if_pos, if_neg, List.filter_cons] <;>
        simp [hx, ih, add_assoc]

theorem coachFold_end_stable (a b : Int) (hist : List CoachEntry)
    (h : ∀ x ∈ hist, x.event ≠ b) :
    ∀ (st : ValueState) (t0 : Int),
    (coachFold a b (st, t0) hist).1.end_value = st.end_value := by
  induction hist with
  | nil => intro st t0; rfl
  | cons x xs ih =>
      intro st t0
      have hxb : x.event ≠ b := h x (List.mem_cons_self _ _)
      have hrest := fun y hy => h y (List.mem_cons_of_mem _ hy)
      simp only [coachFold]
      split_ifs <;> simp_all [ih hrest]

theorem coachFold_start_stable (a b : Int) (hist : List CoachEntry)
    (h : ∀ x ∈ hist, x.event ≠ a) :
    ∀ (st : ValueState) (t0 : Int),
    (coachFold a b (st, t0) hist).1.start_value = st.start_value := by
  induction hist with
  | nil => intro st t0; rfl
  | cons x xs ih =>
      intro st t0
      have hxa : x.event ≠ a := h x (List.mem_cons_self _ _)
      have hrest := fun y hy => h y (List.mem_cons_of_mem _ hy)
      simp only [coachFold]
      split_ifs <;> simp_all [ih hrest]

theorem coachFold_start_some (a b : Int) (hist : List CoachEntry) :
    ∀ (st : ValueState) (t0 : Int), st.start_value.isSome →
    (coachFold a b (st, t0) hist).1.start_value.isSome := by
  induction hist with
  | nil => intro st t0 h; exact h
  | cons x xs ih =>
      intro st t0 h
      simp only [coachFold]
      split_ifs <;> apply ih <;> simp_all

theorem coachFold_end_some (a b : Int) (hist : List CoachEntry) :
    ∀ (st : ValueState) (t0 : Int), st.end_value.isSome →
    (coachFold a b (st, t0) hist).1.end_value.isSome := by
  induction hist with
  | nil => intro st t0 h; exact h
  | cons x xs ih =>
      intro st t0 h
      simp only [coachFold]
      split_ifs <;> apply ih <;> simp_all

theorem coachFold_end_isSome_of_mem (a b : Int) (hab : a ≤ b)
    (hist : List CoachEntry) (hmem : ∃ x ∈ hist, x.event = b) :
    ∀ (st : ValueState) (t0 : Int),
    (coachFold a b (st, t0) hist).1.end_value.isSome := by
  induction hist with
  | nil => simp at hmem
  | cons x xs ih =>
      intro st t0
      by_cases hxb : x.event = b
      · have hx : inMonth a b b = true := by
          simp only [inMonth, decide_eq_true_eq]
          omega
        simp only [coachFold, hxb, hx, if_true, eq_self_iff_true]
        split_ifs <;> apply coachFold_end_some <;> simp
      · have hmem2 : ∃ y ∈ xs, y.event = b := by
          rcases hmem with ⟨y, hy, hyb⟩
          rcases List.mem_cons.mp hy with rfl | hy2
          · exact absurd hyb hxb
          · exact ⟨y, hy2, hyb⟩
        simp only [coachFold]
        split_ifs <;> exact ih hmem2 _ _

theorem mkHistFrom_append (l : List Int) :
    ∀ (k x : Int), mkHistFrom k (l ++ [x]) =
      mkHistFrom k l ++ [⟨k + (l.length : Int), x⟩] := by
  induction l with
  | nil => intro k x; simp [mkHistFrom]
  | cons y ys ih =>
      intro k x
      simp only [List.cons_append, mkHistFrom, List.append_eq]
      rw [ih (k + 1) x]
      have hev : k + 1 + (ys.length : Int) = k + (((ys.length + 1 : Nat)) : Int) := by
        push_cast
        ring
      simp [hev]

theorem mkHistFrom_event_lt (l : List Int) :
    ∀ (k : Int), ∀ en ∈ mkHistFrom k l, k ≤ en.event ∧ en.event < k + (l.length : Int) := by
  induction l with
  | nil => intro k en hen; simp [mkHistFrom] at hen
  | cons y ys ih =>
      intro k en hen
      rcases List.mem_cons.mp hen with rfl | h2
      · simp only [List.length_cons]
        constructor
        · exact le_refl _
        · push_cast; omega
      · have := ih (k + 1) en h2
        simp only [List.length_cons]
        push_cast
        omega

theorem mkHistFrom_mem (l : List Int) :
    ∀ (k i : Int), k ≤ i → i < k + (l.length : Int) →
    ∃ v : Int, (⟨i, v⟩ : MMEntry) ∈ mkHistFrom k l := by
  induction l with
  | nil => intro k i h1 h2; simp at h2; omega
  | cons y ys ih =>
      intro k i h1 h2
      by_cases hik : i = k
      · subst hik
        exact ⟨y, List.mem_cons_self _ _⟩
      · have h3 : k + 1 ≤ i := by omega
        have h4 : i < (k + 1) + (ys.length : Int) := by
          simp only [List.length_cons] at h2
          push_cast at h2
          omega
        obtain ⟨v, hv⟩ := ih (k + 1) i h3 h4
        exact ⟨v, List.mem_cons_of_mem _ hv⟩

theorem mmRun_singleton (s e : Int) (st : MMScores) (x : MMEntry) :
    mmRun s e st [x] = mmStep s e st x := by
  cases h : mmStep s e st x <;> simp [mmRun, h]

theorem mmRun_append_ok (s e : Int) (l : List MMEntry) (x : MMEntry) :
    ∀ (st st2 : MMScores), mmRun s e st l = Except.ok st2 →
    mmRun s e st (l ++ [x]) = mmStep s e st2 x := by
  induction l with
  | nil =>
      intro st st2 h
      simp only [mmRun] at h
      cases h
      simpa using mmRun_singleton s e st x
  | cons y ys ih =>
      intro st st2 h
      simp only [mmRun] at h
      cases hy : mmStep s e st y with
      | error msg => rw [hy] at h; simp at h
      | ok st1 =>
          rw [hy] at h
          simp only [List.cons_append, mmRun, hy]
          exact ih st1 st2 h

theorem windowVals_append (s e : Int) (h1 h2 : List MMEntry) :
    windowVals s e (h1 ++ h2) = windowVals s e h1 ++ windowVals s e h2 := by
  simp [windowVals, List.filter_append]

theorem foldMin_append (l : List Int) (x m : Int) (h : foldMin l = some m) :
    foldMin (l ++ [x]) = some (min m x) := by
  cases l with
  | nil => simp [foldMin] at h
  | cons y ys =>
      simp only [foldMin, Option.some.injEq] at h
      simp [foldMin, List.foldl_append, h]

theorem foldMax_append (l : List Int) (x m : Int) (h : foldMax l = some m) :
    foldMax (l ++ [x]) = some (max m x) := by
  cases l with
  | nil => simp [foldMax] at h
  | cons y ys =>
      simp only [foldMax, Option.some.injEq] at h
      simp [foldMax, List.foldl_append, h]

theorem mmStep_eval_init (s e : Int) (st : MMScores) (ev xv mn mx : Int)
    (h1 : ¬(ev = 1)) (h2 : 1 < ev) (hes : ev = s) (hin : inMonth s e ev = true)
    (hmn : st.min_points_total = some mn) (hmx : st.max_points_total = some mx) :
    mmStep s e st ⟨ev, xv⟩ = Except.ok
      { min_points_total := some (min mn xv), max_points_total := some (max mx xv),
        min_points_month := some xv, max_points_month := some xv } := by
  subst hes
  simp [mmStep, h1, h2, hin, hmn, hmx]

theorem mmStep_eval_month (s e : Int) (st : MMScores) (ev xv mn mx m2 M2 : Int)
    (h1 : ¬(ev = 1)) (h2 : 1 < ev) (hes : ¬(ev = s)) (hin : inMonth s e ev = true)
    (hmn : st.min_points_total = some mn) (hmx : st.max_points_total = some mx)
    (hm2 : st.min_points_month = some m2) (hM2 : st.max_points_month = some M2) :
    mmStep s e st ⟨ev, xv⟩ = Except.ok
      { min_points_total := some (min mn xv), max_points_total := some (max mx xv),
        min_points_month := some (min m2 xv), max_points_month := some (max M2 xv) } := by
  simp [mmStep, h1, h2, hes, hin, hmn, hmx, hm2, hM2]

theorem mmStep_eval_out (s e : Int) (st : MMScores) (ev xv mn mx : Int)
    (h1 : ¬(ev = 1)) (h2 : 1 < ev) (hes : ¬(ev = s)) (hin : inMonth s e ev = false)
    (hmn : st.min_points_total = some mn) (hmx : st.max_points_total = some mx) :
    mmStep s e st ⟨ev, xv⟩ = Except.ok
      { min_points_total := some (min mn xv), max_points_total := some (max mx xv),
        min_points_month := st.min_points_month,
        max_points_month := st.max_points_month } := by
  simp [mmStep, h1, h2, hes, hin, hmn, hmx]

theorem leastMost_sorted (s e : Int) (hs1 : 1 ≤ s) (hse : s ≤ e) :
    ∀ tps : List Int, tps ≠ [] →
    leastMostManager s e (mkHist tps) = Except.ok
      { min_points_total := foldMin tps,
        max_points_total := foldMax tps,
        min_points_month := foldMin (windowVals s e (mkHist tps)),
        max_points_month := foldMax (windowVals s e (mkHist tps)) } := by
  intro tps
  induction tps using List.reverseRecOn with
  | nil => intro h; exact absurd rfl h
  | append_singleton l x ih =>
      intro _
      by_cases hl : l = []
      · subst hl
        have hmk : mkHist ([] ++ [x]) = [⟨1, x⟩] := rfl
        have hrun : leastMostManager s e (mkHist ([] ++ [x])) =
            mmStep s e ⟨none, none, none, none⟩ ⟨1, x⟩ := by
          rw [hmk]
          exact mmRun_singleton s e _ _
        rw [hrun]
        by_cases hs : s = 1
        · subst hs
          have hin : inMonth 1 e 1 = true := by
            simp only [inMonth, decide_eq_true_eq]
            omega
          simp [mmStep, windowVals, foldMin, foldMax, hin, mkHist, mkHistFrom,
            List.filter_cons, List.filter_nil]
        · have hin : inMonth s e 1 = false := by
            simp only [inMonth, decide_eq_false_iff_not]
            omega
          have hs1' : ¬((1 : Int) = s) := fun hcon => hs hcon.symm
          simp [mmStep, windowVals, foldMin, foldMax, hin, mkHist, mkHistFrom,
            List.filter_cons, List.filter_nil, hs1']
      · obtain ⟨y, ys, rfl⟩ := List.exists_cons_of_ne_nil hl
        have happ : mkHist ((y :: ys) ++ [x]) =
            mkHist (y :: ys) ++ [⟨1 + ((y :: ys).length : Int), x⟩] := by
          simpa [mkHist] using mkHistFrom_append (y :: ys) 1 x
        have hprev : mmRun s e ⟨none, none, none, none⟩ (mkHist (y :: ys)) = Except.ok
            { min_points_total := foldMin (y :: ys),
              max_points_total := foldMax (y :: ys),
              min_points_month := foldMin (windowVals s e (mkHist (y :: ys))),
              max_points_month := foldMax (windowVals s e (mkHist (y :: ys))) } := ih hl
        have hstep : leastMostManager s e (mkHist ((y :: ys) ++ [x])) =
            mmStep s e
              { min_points_total := foldMin (y :: ys),
                max_points_total := foldMax (y :: ys),
                min_points_month := foldMin (windowVals s e (mkHist (y :: ys))),
                max_points_month := foldMax (windowVals s e (mkHist (y :: ys))) }
              ⟨1 + (((y :: ys).length : Nat) : Int), x⟩ := by
          show mmRun s e ⟨none, none, none, none⟩ (mkHist ((y :: ys) ++ [x])) = _
          rw [happ]
          exact mmRun_append_ok s e (mkHist (y :: ys)) _ _ _ hprev
        rw [hstep]
        have hev1 : ¬(1 + (((y :: ys).length : Nat) : Int) = 1) := by
          simp only [List.length_cons]
          push_cast
          omega
        have hevgt : (1 : Int) < 1 + (((y :: ys).length : Nat) : Int) := by
          simp only [List.length_cons]
          push_cast
          omega
        have hwin : windowVals s e (mkHist ((y :: ys) ++ [x])) =
            windowVals s e (mkHist (y :: ys)) ++
              (if inMonth s e (1 + (((y :: ys).length : Nat) : Int)) then [x] else []) := by
          rw [happ, windowVals_append]
          congr 1
          simp only [windowVals, List.filter_cons, List.filter_nil]
          split_ifs with hc <;> simp
        by_cases hin : inMonth s e (1 + (((y :: ys).length : Nat) : Int)) = true
        · by_cases hes : 1 + (((y :: ys).length : Nat) : Int) = s
          · have hWnil : windowVals s e (mkHist (y :: ys)) = [] := by
              have hall : ∀ en ∈ mkHist (y :: ys), ¬(inMonth s e en.event = true) := by
                intro en hen
                have hb := mkHistFrom_event_lt (y :: ys) 1 en hen
                simp only [inMonth, decide_eq_true_eq]
                intro hcon
                omega
              simp only [windowVals]
              rw [List.filter_eq_nil_iff.mpr (by intro a ha; exact hall a ha)]
              rfl
            rw [mmStep_eval_init s e _ _ x (ys.foldl min y) (ys.foldl max y)
              hev1 hevgt hes hin rfl rfl]
            rw [hwin, if_pos hin, hWnil]
            rw [foldMin_append (y :: ys) x (ys.foldl min y) rfl,
              foldMax_append (y :: ys) x (ys.foldl max y) rfl]
            simp [foldMin, foldMax]
          · have hslt : s < 1 + (((y :: ys).length : Nat) : Int) := by
              have hsle : s ≤ 1 + (((y :: ys).length : Nat) : Int) := by
                simp only [inMonth, decide_eq_true_eq] at hin
                exact hin.1
              omega
            obtain ⟨v, hv⟩ := mkHistFrom_mem (y :: ys) 1 s hs1 (by omega)
            have hWne : windowVals s e (mkHist (y :: ys)) ≠ [] := by
              apply List.ne_nil_of_mem (a := v)
              simp only [windowVals, List.mem_map]
              refine ⟨⟨s, v⟩, ?_, rfl⟩
              rw [List.mem_filter]
              refine ⟨hv, ?_⟩
              simp only [inMonth, decide_eq_true_eq]
              omega
            obtain ⟨w, ws, hW⟩ := List.exists_cons_of_ne_nil hWne
            rw [hW]
            rw [mmStep_eval_month s e _ _ x (ys.foldl min y) (ys.foldl max y)
              (ws.foldl min w) (ws.foldl max w) hev1 hevgt hes hin rfl rfl rfl rfl]
            rw [hwin, if_pos hin, hW]
            rw [foldMin_append (y :: ys) x (ys.foldl min y) rfl,
              foldMax_append (y :: ys) x (ys.foldl max y) rfl,
              foldMin_append (w :: ws) x (ws.foldl min w) rfl,
              foldMax_append (w :: ws) x (ws.foldl max w) rfl]
        · have hes : ¬(1 + (((y :: ys).length : Nat) : Int) = s) := by
            intro hcon
            apply hin
            simp only [inMonth, decide_eq_true_eq]
            omega
          have hin2 : inMonth s e (1 + (((y :: ys).length : Nat) : Int)) = false := by
            simpa using hin
          rw [mmStep_eval_out s e _ _ x (ys.foldl min y) (ys.foldl max y)
            hev1 hevgt hes hin2 rfl rfl]
          rw [hwin, if_neg (by simpa using hin)]
          rw [foldMin_append (y :: ys) x (ys.foldl min y) rfl,
            foldMax_append (y :: ys) x (ys.foldl max y) rfl]
          simp

/-- Claim C1: in the captain/bench/transfer report, for every manager and
every `end_gw_total ≥ 1` (whose iterated gameweeks each have a flagged
captain), `captain_points_total` equals the sum over gameweeks `1..N` of the
sum of `total_points` over ALL fixtures of that gameweek's captain's
full-season fixture history — the total is not gameweek-scoped. -/
theorem captain_points_total_full_history_resum (s e : Int) (N : Nat)
    (ph : Int → List Fixture) (picksOf : Int → PicksResponse) (c0 : Option Int)
    (hN : 1 ≤ N)
    (hcap : ∀ gw ∈ gwListI N, ∃ p ∈ (picksOf gw).picks, p.is_captain = true) :
    ∃ cEnd sc, cbtManager s e N ph picksOf c0 = Except.ok (cEnd, sc) ∧
      sc.captain_points_total =
        ((gwListI N).map fun gw =>
          ((ph (capOf picksOf gw)).map fun f => f.total_points).sum).sum := by
  have hmaster := cbtLoop_eq s e ph picksOf (gwListI N) c0 cbtZero hcap
  refine ⟨_, _, hmaster, ?_⟩
  show cbtZero.captain_points_total +
      ((capFixtures ph picksOf (gwListI N)).map fun f => f.total_points).sum = _
  rw [capFixtures, sum_map_bind]
  simp [cbtZero]

/-- Witness for claim C1: with two gameweeks, captain `5` both times, and a
season history totalling 40 points, `captain_points_total` is 80. -/
theorem captain_points_total_full_history_resum_witness :
    1 ≤ 2 ∧
    (∀ gw ∈ gwListI 2, ∃ p ∈ (w1picks gw).picks, p.is_captain = true) ∧
    (∃ cEnd sc, cbtManager 1 1 2 w1ph w1picks none = Except.ok (cEnd, sc) ∧
      sc.captain_points_total =
        ((gwListI 2).map fun gw =>
          ((w1ph (capOf w1picks gw)).map fun f => f.total_points).sum).sum) ∧
    ((gwListI 2).map fun gw =>
      ((w1ph (capOf w1picks gw)).map fun f => f.total_points).sum).sum = 80 :=
  ⟨by norm_num, by decide,
    captain_points_total_full_history_resum 1 1 2 w1ph w1picks none
      (by norm_num) (by decide), by decide⟩

/-- Claim C8 (amended): the captain of a gameweek is the last pick flagged
`is_captain`; when no pick of a gameweek is flagged, the computation fails
with a `NameError` only if no captain was ever identified earlier in the run;
otherwise it silently proceeds with the most recently identified captain. -/
theorem captain_lookup_fallback (s e : Int) (ph : Int → List Fixture)
    (picksOf : Int → PicksResponse) (gw : Int) (sc : CBTScore)
    (h : ∀ p ∈ (picksOf gw).picks, p.is_captain = false) :
    cbtStep s e ph picksOf (none, sc) gw = Except.error "NameError: captain" ∧
    ∀ c : Int, cbtStep s e ph picksOf (some c, sc) gw =
      Except.ok (some c, cbtWithCaptain s e (ph c) gw (picksOf gw).entry_history sc) := by
  constructor
  · simp only [cbtStep, findCaptain_no_flag _ _ h]
  · intro c
    simp only [cbtStep, findCaptain_no_flag _ _ h]

/-- Witness for claim C8 (amended): on a pick list with no flagged captain
the gameweek step errors when the local is unbound, and silently reuses
player 5 when it is bound. -/
theorem captain_lookup_fallback_witness :
    (∀ p ∈ (c8nocap 1).picks, p.is_captain = false) ∧
    cbtStep 1 1 c8ph c8nocap (none, cbtZero) 1 = Except.error "NameError: captain" ∧
    cbtStep 1 1 c8ph c8nocap (some 5, cbtZero) 1 =
      Except.ok (some 5, cbtWithCaptain 1 1 (c8ph 5) 1 (c8nocap 1).entry_history cbtZero) :=
  ⟨by decide,
    (captain_lookup_fallback 1 1 c8ph c8nocap 1 cbtZero (by decide)).1,
    (captain_lookup_fallback 1 1 c8ph c8nocap 1 cbtZero (by decide)).2 5⟩

/-- Counterexample for claim C8 as stated: gameweek 2 has no flagged captain,
yet the report completes without any error, double-counting the gameweek-1
captain's history (player 7, 10 points per resummation). -/
theorem captain_missing_flag_reuses_previous :
    fetch_captain_bench_transfer 1 1 2 c8ph [("team", c8picksOf)] =
      Except.ok [("team", ⟨0, 0, 0, 0, 20, 20⟩)] := by rfl

/-- Claim C10: when several picks are flagged `is_captain`, no error is
raised and the last flagged pick in list order is used as the captain. -/
theorem last_captain_flag_wins (s e : Int) (ph : Int → List Fixture)
    (picksOf : Int → PicksResponse) (gw : Int) (c0 : Option Int) (sc : CBTScore)
    (l1 l2 : List Pick) (p q : Pick)
    (hsplit : (picksOf gw).picks = l1 ++ p :: l2)
    (hq : q ∈ l1) (hqc : q.is_captain = true)
    (hpc : p.is_captain = true) (hl2 : ∀ r ∈ l2, r.is_captain = false) :
    cbtStep s e ph picksOf (c0, sc) gw =
      Except.ok (some p.element,
        cbtWithCaptain s e (ph p.element) gw (picksOf gw).entry_history sc) := by
  have hfind : findCaptain (picksOf gw).picks c0 = some p.element := by
    rw [hsplit]
    show List.foldl (fun c p => if p.is_captain then some p.element else c) c0 (l1 ++ p :: l2) =
      some p.element
    rw [List.foldl_append, List.foldl_cons, hpc]
    simp only [if_true]
    exact findCaptain_no_flag l2 (some p.element) hl2
  simp only [cbtStep, hfind]

/-- Witness for claim C10: with two flagged captains (players 1 then 2), the
gameweek step succeeds and uses player 2, the last flagged pick. -/
theorem last_captain_flag_wins_witness :
    (c10picksOf 1).picks = [⟨1, 1, true⟩] ++ (⟨2, 1, true⟩ : Pick) :: [] ∧
    (⟨1, 1, true⟩ : Pick) ∈ [(⟨1, 1, true⟩ : Pick)] ∧
    (⟨1, 1, true⟩ : Pick).is_captain = true ∧
    (⟨2, 1, true⟩ : Pick).is_captain = true ∧
    cbtStep 1 1 c8ph c10picksOf (none, cbtZero) 1 =
      Except.ok (some 2,
        cbtWithCaptain 1 1 (c8ph 2) 1 (c10picksOf 1).entry_history cbtZero) :=
  ⟨by decide, by decide, by decide, by decide,
    last_captain_flag_wins 1 1 c8ph c10picksOf 1 none cbtZero
      [⟨1, 1, true⟩] [] ⟨2, 1, true⟩ ⟨1, 1, true⟩ (by decide) (by decide)
      (by decide) (by decide) (by decide)⟩

/-- Claim C2: in the season/month point and value report, for every manager
and every range `[a, b]` with `a ≤ b`, the reported `points` equals the sum
of `points` over exactly those history entries whose event lies in `[a, b]`. -/
theorem coach_points_range_sum (a b : Int) (st : ValueState)
    (hist : List CoachEntry) (st2 : ValueState) (r : CoachReport)
    (hab : a ≤ b)
    (hok : coachStep a b st hist = Except.ok (st2, r)) :
    r.points = ((hist.filter fun x => inMonth a b x.event).map fun x => x.points).sum := by
  have hp := coachFold_points a b hist st 0
  rcases hend : (coachFold a b (st, 0) hist).1.end_value with _ | ev
  · simp only [coachStep, hend] at hok
    exact Except.noConfusion hok
  · rcases hstart : (coachFold a b (st, 0) hist).1.start_value with _ | sv
    · simp only [coachStep, hend, hstart] at hok
      exact Except.noConfusion hok
    · simp only [coachStep, hend, hstart, Except.ok.injEq, Prod.mk.injEq] at hok
      obtain ⟨h1, h2⟩ := hok
      rw [← h2]
      simpa using hp

/-- Witness for claim C2: on a synthetic three-entry history with range
`[1, 2]` the reported points are `10 + 20 = 30`, the in-range subset sum. -/
theorem coach_points_range_sum_witness :
    (1 : Int) ≤ 2 ∧
    coachStep 1 2 ⟨none, none⟩ w2hist =
      Except.ok (⟨some 100, some 101⟩, ⟨30, 101, 1⟩) ∧
    (30 : Int) = ((w2hist.filter fun x => inMonth 1 2 x.event).map fun x => x.points).sum := by
  have hok : coachStep 1 2 ⟨none, none⟩ w2hist =
      Except.ok (⟨some 100, some 101⟩, ⟨30, 101, 1⟩) := by
    norm_num [coachStep, coachFold, w2hist, inMonth]
  refine ⟨by norm_num, hok, ?_⟩
  have := coach_points_range_sum 1 2 ⟨none, none⟩ w2hist
    ⟨some 100, some 101⟩ ⟨30, 101, 1⟩ (by norm_num) hok
  simpa using this

/-- Claim C7 (amended): when a manager has no history entry at exactly
`end_gw` (resp. `start_gw`), the computation fails only for the first manager
of the run — with a generic unbound-local `NameError`, not a distinct
missing-required-sample error; for a later manager the stale value captured
from an earlier manager is silently reused as `end_team_value`. -/
theorem coach_missing_sample_behavior (a b : Int) (hab : a ≤ b) :
    (∀ (nm : String) (hist : List CoachEntry) (rest : List (String × List CoachEntry)),
      (∀ x ∈ hist, x.event ≠ b) →
      fetch_coach_of_the_month_and_team_value a b ((nm, hist) :: rest) =
        Except.error "NameError: end_value") ∧
    (∀ (nm : String) (hist : List CoachEntry) (rest : List (String × List CoachEntry)),
      (∃ x ∈ hist, x.event = b) → (∀ x ∈ hist, x.event ≠ a) →
      fetch_coach_of_the_month_and_team_value a b ((nm, hist) :: rest) =
        Except.error "NameError: start_value") ∧
    (∀ (sv ev : ℚ) (hist : List CoachEntry),
      (∀ x ∈ hist, x.event ≠ b) →
      ∃ st2 r, coachStep a b ⟨some sv, some ev⟩ hist = Except.ok (st2, r) ∧
        r.end_team_value = ev) := by
  refine ⟨?_, ?_, ?_⟩
  · intro nm hist rest hne
    have hend : (coachFold a b (⟨none, none⟩, 0) hist).1.end_value = none :=
      coachFold_end_stable a b hist hne ⟨none, none⟩ 0
    simp only [fetch_coach_of_the_month_and_team_value, coachRun, coachStep, hend]
  · intro nm hist rest hmem hne
    have hsome := coachFold_end_isSome_of_mem a b hab hist hmem ⟨none, none⟩ 0
    obtain ⟨ev0, hev0⟩ := Option.isSome_iff_exists.mp hsome
    have hstart : (coachFold a b (⟨none, none⟩, 0) hist).1.start_value = none :=
      coachFold_start_stable a b hist hne ⟨none, none⟩ 0
    simp only [fetch_coach_of_the_month_and_team_value, coachRun, coachStep, hev0, hstart]
  · intro sv ev hist hne
    have hend : (coachFold a b (⟨some sv, some ev⟩, 0) hist).1.end_value = some ev :=
      coachFold_end_stable a b hist hne ⟨some sv, some ev⟩ 0
    have hsome := coachFold_start_some a b hist ⟨some sv, some ev⟩ 0 (by simp)
    obtain ⟨sv2, hsv2⟩ := Option.isSome_iff_exists.mp hsome
    refine ⟨(coachFold a b (⟨some sv, some ev⟩, 0) hist).1,
      ⟨(coachFold a b (⟨some sv, some ev⟩, 0) hist).2, ev, ev - sv2⟩, ?_, rfl⟩
    simp only [coachStep, hend, hsv2]

/-- Witness for claim C7 (amended): a first manager with no entry at the end
gameweek makes the run fail with the unbound-local error; a manager processed
with stale locals bound to `(100, 101)` and no entry at the end gameweek
reports the stale `101`. -/
theorem coach_missing_sample_behavior_witness :
    (1 : Int) ≤ 2 ∧
    (∀ x ∈ c7m2, x.event ≠ 2) ∧
    fetch_coach_of_the_month_and_team_value 1 2 [("m2", c7m2)] =
      Except.error "NameError: end_value" ∧
    (∃ st2 r, coachStep 1 2 ⟨some 100, some 101⟩ c7m2 = Except.ok (st2, r) ∧
      r.end_team_value = 101) :=
  ⟨by norm_num, by decide,
    (coach_missing_sample_behavior 1 2 (by norm_num)).1 "m2" c7m2 [] (by decide),
    (coach_missing_sample_behavior 1 2 (by norm_num)).2.2 100 101 c7m2 (by decide)⟩

/-- Counterexample for claim C7 as stated: the second manager has no history
entry at `end_gw = 2`, yet no error is surfaced; the run succeeds and
silently reports the first manager's end value `101` (and a delta computed
from it) for the second manager. -/
theorem coach_stale_value_reuse :
    fetch_coach_of_the_month_and_team_value 1 2 [("m1", c7m1), ("m2", c7m2)] =
      Except.ok [("m1", ⟨7, 101, 1⟩), ("m2", ⟨5, 101, -99⟩)] := by
  norm_num [fetch_coach_of_the_month_and_team_value, coachRun, coachStep, coachFold,
    c7m1, c7m2, inMonth]

/-- Claim C3: in the positional report, a pick whose effective multiplier is
0 (benched) always adds its fixture points to `bench.total` (and to
`bench.month` when the gameweek is in the month range) regardless of
`bench_included`; it contributes to the positional points and to the
goals/assists/xG/xA accumulators (with multiplier 1) exactly when
`bench_included` is true. -/
theorem benched_pick_contributions (s e : Int) (ci bi : Bool)
    (posOf : Int → Position) (ph : Int → List Fixture) (gw : Int)
    (sc : PosScore) (p : Pick)
    (hm : effCaptain ci p.multiplier = 0)
    (h0 : 0 ≤ gw - 1) (h : (gw - 1).toNat < (ph p.element).length) :
    posPick s e ci bi posOf ph gw sc p = Except.ok
      { goalkeeper_total := sc.goalkeeper_total + (if bi ∧ posOf p.element = Position.goalkeeper
          then (fxAt ph p.element gw).total_points else 0),
        goalkeeper_month := sc.goalkeeper_month +
          (if inMonth s e gw ∧ bi ∧ posOf p.element = Position.goalkeeper
          then (fxAt ph p.element gw).total_points else 0),
        defender_total := sc.defender_total + (if bi ∧ posOf p.element = Position.defender
          then (fxAt ph p.element gw).total_points else 0),
        defender_month := sc.defender_month +
          (if inMonth s e gw ∧ bi ∧ posOf p.element = Position.defender
          then (fxAt ph p.element gw).total_points else 0),
        midfielder_total := sc.midfielder_total + (if bi ∧ posOf p.element = Position.midfielder
          then (fxAt ph p.element gw).total_points else 0),
        midfielder_month := sc.midfielder_month +
          (if inMonth s e gw ∧ bi ∧ posOf p.element = Position.midfielder
          then (fxAt ph p.element gw).total_points else 0),
        forward_total := sc.forward_total + (if bi ∧ posOf p.element = Position.forward
          then (fxAt ph p.element gw).total_points else 0),
        forward_month := sc.forward_month +
          (if inMonth s e gw ∧ bi ∧ posOf p.element = Position.forward
          then (fxAt ph p.element gw).total_points else 0),
        bench_total := sc.bench_total + (fxAt ph p.element gw).total_points,
        bench_month := sc.bench_month +
          (if inMonth s e gw then (fxAt ph p.element gw).total_points else 0),
        goals_total := sc.goals_total + (if bi then (fxAt ph p.element gw).goals_scored else 0),
        goals_month := sc.goals_month +
          (if inMonth s e gw ∧ bi then (fxAt ph p.element gw).goals_scored else 0),
        assists_total := sc.assists_total + (if bi then (fxAt ph p.element gw).assists else 0),
        assists_month := sc.assists_month +
          (if inMonth s e gw ∧ bi then (fxAt ph p.element gw).assists else 0),
        expected_goals_total := sc.expected_goals_total +
          (if bi then (fxAt ph p.element gw).expected_goals else 0),
        expected_goals_month := sc.expected_goals_month +
          (if inMonth s e gw ∧ bi then (fxAt ph p.element gw).expected_goals else 0),
        expected_assists_total := sc.expected_assists_total +
          (if bi then (fxAt ph p.element gw).expected_assists else 0),
        expected_assists_month := sc.expected_assists_month +
          (if inMonth s e gw ∧ bi then (fxAt ph p.element gw).expected_assists else 0) } := by
  rw [posPick_ok s e ci bi posOf ph gw sc p h0 h]
  have hm' : effm ci bi p.multiplier = if bi then 1 else 0 := by
    simp [effm, hm]
  by_cases hbi : bi <;> by_cases hr : inMonth s e gw <;>
    cases hpos : posOf p.element <;>
    simp_all [posPts, benchPts, statGoals, statAssists, statXg, statXa, hm, hm', hpos]

/-- Witness for claim C3: a benched pick (multiplier 0) with
`bench_included = true` adds its 15 fixture points to the bench fields and,
with multiplier 1, to its position (midfielder) fields. -/
theorem benched_pick_contributions_witness :
    effCaptain true (0 : Int) = 0 ∧
    (0 : Int) ≤ 1 - 1 ∧ ((1 : Int) - 1).toNat < (w1ph 5).length ∧
    posPick 1 1 true true wPosOf w1ph 1 posZero ⟨5, 0, false⟩ = Except.ok wC3expected := by
  refine ⟨by decide, by decide, by decide, ?_⟩
  have h := benched_pick_contributions 1 1 true true wPosOf w1ph 1 posZero ⟨5, 0, false⟩
    (by decide) (by decide) (by decide)
  rw [h]
  norm_num [wPosOf, w1ph, fxAt, inMonth, posZero, wC3expected]
  decide

/-- Claim C9 (amended): when the fixture-history index `gw - 1` is out of
range for a pick's own fixture history, the positional computation fails with
the generic list-indexing `IndexError` — the same error any out-of-range list
index produces — not a distinct misaligned-history error. -/
theorem fixture_index_generic_error (s e : Int) (ci bi : Bool)
    (posOf : Int → Position) (ph : Int → List Fixture) (gw : Int)
    (sc : PosScore) (p : Pick)
    (h0 : 0 ≤ gw - 1) (h : ((ph p.element).length : Int) ≤ gw - 1) :
    posPick s e ci bi posOf ph gw sc p =
      Except.error "IndexError: list index out of range" := by
  have hidx : pyIndex (ph p.element) (gw - 1) =
      Except.error "IndexError: list index out of range" := by
    have hneg : ¬(gw - 1 < 0) := by omega
    simp only [pyIndex, hneg, if_false]
    rw [dif_neg (by intro hcon; omega)]
  simp only [posPick, hidx]

/-- Witness for claim C9 (amended): player 1 has an empty fixture history, so
the gameweek-1 pick lookup fails with the generic `IndexError`. -/
theorem fixture_index_generic_error_witness :
    (0 : Int) ≤ 1 - 1 ∧ ((c9ph 1).length : Int) ≤ 1 - 1 ∧
    posPick 1 1 true true c6posOf c9ph 1 posZero ⟨1, 1, false⟩ =
      Except.error "IndexError: list index out of range" :=
  ⟨by decide, by decide,
    fixture_index_generic_error 1 1 true true c6posOf c9ph 1 posZero ⟨1, 1, false⟩
      (by decide) (by decide)⟩

/-- Counterexample for claim C9 as stated: the whole positional report run on
a player with an empty fixture history ends in exactly the generic
`IndexError` that plain out-of-range list indexing produces (shown on an
unrelated list), so no distinct misaligned-history error exists. -/
theorem fixture_index_error_not_distinct :
    position_bench_goals_assists_xg_xa 1 1 1 true true c6posOf c9ph
        [("team", c9picksOf)] =
      Except.error "IndexError: list index out of range" ∧
    pyIndex ([] : List Int) 0 = Except.error "IndexError: list index out of range" := by
  constructor
  · rfl
  · rfl

theorem posPts_sum_positions (ci bi : Bool) (posOf : Int → Position)
    (ph : Int → List Fixture) (gw : Int) (p : Pick) :
    posPts ci bi posOf ph gw p Position.goalkeeper +
      posPts ci bi posOf ph gw p Position.defender +
      posPts ci bi posOf ph gw p Position.midfielder +
      posPts ci bi posOf ph gw p Position.forward =
    (fxAt ph p.element gw).total_points * effm ci bi p.multiplier := by
  rcases hpos : posOf p.element <;> simp [posPts, hpos]

theorem sum_map_add {α : Type} (l : List α) (f g : α → Int) :
    (l.map (fun a => f a + g a)).sum = (l.map f).sum + (l.map g).sum := by
  induction l with
  | nil => rfl
  | cons a t ih =>
      simp only [List.map_cons, List.sum_cons, ih]
      ring

theorem sum_map_eq_sum_filter_of_zero {α : Type} (l : List α) (p : α → Bool)
    (f : α → Int) (h : ∀ a ∈ l, p a = false → f a = 0) :
    (l.map f).sum = ((l.filter p).map f).sum := by
  induction l with
  | nil => rfl
  | cons a t ih =>
      have hrest := fun x hx => h x (List.mem_cons_of_mem _ hx)
      by_cases hp : p a = true
      · simp [List.filter_cons, hp, ih hrest]
      · have hz : f a = 0 := h a (List.mem_cons_self _ _) (by simpa using hp)
        simp [List.filter_cons, hp, hz, ih hrest]

/-- Claim C6 (amended): in the positional report with `bench_included =
false`, the sum of the four per-position `total` accumulators (without
`bench.total`) equals the sum of `points × effective multiplier` over the
non-bench picks (raw multiplier ≠ 0) of all iterated gameweeks, where the
effective multiplier is the raw one except that 2 becomes 1 when
`captain_points_included` is false; `bench.total` holds the bench picks'
points separately. -/
theorem positional_total_sum_invariant (s e : Int) (N : Nat) (ci : Bool)
    (posOf : Int → Position) (ph : Int → List Fixture) (picksOf : Int → PicksResponse)
    (hlen : ∀ gw ∈ gwListI N, ∀ p ∈ (picksOf gw).picks,
      (gw - 1).toNat < (ph p.element).length) :
    ∃ sc, posManager s e N ci false posOf ph picksOf = Except.ok sc ∧
      sc.goalkeeper_total + sc.defender_total + sc.midfielder_total + sc.forward_total =
        ((gwListI N).map fun gw =>
          (((picksOf gw).picks.filter fun p => decide (p.multiplier ≠ 0)).map
            fun p => (fxAt ph p.element gw).total_points * effm ci false p.multiplier).sum).sum ∧
      sc.bench_total = ((gwListI N).map fun gw =>
        ((picksOf gw).picks.map fun p => benchPts ci ph gw p).sum).sum := by
  refine ⟨_, posManager_eq s e N ci false posOf ph picksOf hlen, ?_,
    by simp [roundFinal, gwBenchPts]⟩
  have hproj : ∀ R : PosScore, (roundFinal R).goalkeeper_total = R.goalkeeper_total ∧
      (roundFinal R).defender_total = R.defender_total ∧
      (roundFinal R).midfielder_total = R.midfielder_total ∧
      (roundFinal R).forward_total = R.forward_total := fun R => ⟨rfl, rfl, rfl, rfl⟩
  simp only [roundFinal]
  rw [← sum_map_add, ← sum_map_add, ← sum_map_add]
  have hgw : ∀ gw : Int,
      gwPosPts ci false posOf ph picksOf gw Position.goalkeeper +
        gwPosPts ci false posOf ph picksOf gw Position.defender +
        gwPosPts ci false posOf ph picksOf gw Position.midfielder +
        gwPosPts ci false posOf ph picksOf gw Position.forward =
      (((picksOf gw).picks.filter fun p => decide (p.multiplier ≠ 0)).map
        fun p => (fxAt ph p.element gw).total_points * effm ci false p.multiplier).sum := by
    intro gw
    simp only [gwPosPts]
    rw [← sum_map_add, ← sum_map_add, ← sum_map_add]
    rw [show (fun p => posPts ci false posOf ph gw p Position.goalkeeper +
        posPts ci false posOf ph gw p Position.defender +
        posPts ci false posOf ph gw p Position.midfielder +
        posPts ci false posOf ph gw p Position.forward) =
        (fun p : Pick => (fxAt ph p.element gw).total_points * effm ci false p.multiplier)
      from funext fun p => posPts_sum_positions ci false posOf ph gw p]
    exact sum_map_eq_sum_filter_of_zero _ _ _ (by
      intro q hq hqm
      have hq0 : q.multiplier = 0 := by
        by_contra hne
        simp [hne] at hqm
      rw [hq0]
      simp [effm, effCaptain])
  simp only [hgw]

/-- Witness for claim C6 (amended): on the concrete two-pick squad the
position totals sum to 3, the non-bench `points × multiplier` sum. -/
theorem positional_total_sum_invariant_witness :
    (∀ gw ∈ gwListI 1, ∀ p ∈ (c6picksOf gw).picks,
      (gw - 1).toNat < (c6ph p.element).length) ∧
    (∃ sc, posManager 1 1 1 true false c6posOf c6ph c6picksOf = Except.ok sc ∧
      sc.goalkeeper_total + sc.defender_total + sc.midfielder_total + sc.forward_total =
        ((gwListI 1).map fun gw =>
          (((c6picksOf gw).picks.filter fun p => decide (p.multiplier ≠ 0)).map
            fun p => (fxAt c6ph p.element gw).total_points * effm true false p.multiplier).sum).sum ∧
      sc.bench_total = ((gwListI 1).map fun gw =>
        ((c6picksOf gw).picks.map fun p => benchPts true c6ph gw p).sum).sum) :=
  ⟨by decide, positional_total_sum_invariant 1 1 1 true c6posOf c6ph c6picksOf (by decide)⟩

/-- Counterexample for claim C6 as stated: with `bench_included = false`, a
playing pick worth 3 points and a benched pick worth 2 points give
per-position totals plus `bench.total` equal to 5, while the sum of
`points × multiplier` over the non-bench picks is 3. -/
theorem positional_bench_sum_mismatch :
    position_bench_goals_assists_xg_xa 1 1 1 true false c6posOf c6ph
        [("team", c6picksOf)] = Except.ok [("team", c6score)] ∧
    c6score.goalkeeper_total + c6score.defender_total + c6score.midfielder_total +
      c6score.forward_total + c6score.bench_total = 5 ∧
    (((c6picksOf 1).picks.filter fun p => decide (p.multiplier ≠ 0)).map
      fun p => (fxAt c6ph p.element 1).total_points * p.multiplier).sum = 3 ∧
    (5 : Int) ≠ 3 := by
  refine ⟨?_, by decide, by decide, by decide⟩
  have h := posManager_eq 1 1 1 true false c6posOf c6ph c6picksOf (by decide)
  have hg : gwListI 1 = [1] := by rfl
  simp only [position_bench_goals_assists_xg_xa, h]
  norm_num [hg, gwPosPts, gwBenchPts, gwGoals, gwAssists, gwXg, gwXa, posPts,
    benchPts, statGoals, statAssists, statXg, statXa, effm, effCaptain, fxAt,
    c6ph, c6posOf, c6picksOf, inMonth, roundFinal, round2, c6score]
  decide

/-- Claim C5: in both accumulating reports, every month accumulator is the
sum of exactly the subset of the contributions making up the corresponding
total accumulator whose gameweek — for captain points, whose fixture round —
lies in `[start_gw_month, end_gw_month]`; for the expected-goal/assist pair
the final rounding of the source is applied to both sums alike. -/
theorem month_totals_subset_sums (s e : Int) (N : Nat) (ph : Int → List Fixture)
    (picksOf : Int → PicksResponse) (c0 : Option Int) (ci bi : Bool)
    (posOf : Int → Position)
    (hcap : ∀ gw ∈ gwListI N, ∃ p ∈ (picksOf gw).picks, p.is_captain = true)
    (hlen : ∀ gw ∈ gwListI N, ∀ p ∈ (picksOf gw).picks,
      (gw - 1).toNat < (ph p.element).length) :
    (∃ cEnd sc, cbtManager s e N ph picksOf c0 = Except.ok (cEnd, sc) ∧
      sc.captain_points_total =
        ((capFixtures ph picksOf (gwListI N)).map fun f => f.total_points).sum ∧
      sc.captain_points_month =
        (((capFixtures ph picksOf (gwListI N)).filter fun f => inMonth s e f.round).map
          fun f => f.total_points).sum ∧
      sc.points_on_bench_total =
        ((gwListI N).map fun gw => (picksOf gw).entry_history.points_on_bench).sum ∧
      sc.points_on_bench_month =
        (((gwListI N).filter fun gw => inMonth s e gw).map
          fun gw => (picksOf gw).entry_history.points_on_bench).sum ∧
      sc.number_of_transfers_total =
        ((gwListI N).map fun gw => (picksOf gw).entry_history.event_transfers).sum ∧
      sc.number_of_transfers_month =
        (((gwListI N).filter fun gw => inMonth s e gw).map
          fun gw => (picksOf gw).entry_history.event_transfers).sum) ∧
    (∃ psc, posManager s e N ci bi posOf ph picksOf = Except.ok psc ∧
      psc.goalkeeper_total =
        ((gwListI N).map fun gw => gwPosPts ci bi posOf ph picksOf gw Position.goalkeeper).sum ∧
      psc.goalkeeper_month =
        (((gwListI N).filter fun gw => inMonth s e gw).map
          fun gw => gwPosPts ci bi posOf ph picksOf gw Position.goalkeeper).sum ∧
      psc.defender_total =
        ((gwListI N).map fun gw => gwPosPts ci bi posOf ph picksOf gw Position.defender).sum ∧
      psc.defender_month =
        (((gwListI N).filter fun gw => inMonth s e gw).map
          fun gw => gwPosPts ci bi posOf ph picksOf gw Position.defender).sum ∧
      psc.midfielder_total =
        ((gwListI N).map fun gw => gwPosPts ci bi posOf ph picksOf gw Position.midfielder).sum ∧
      psc.midfielder_month =
        (((gwListI N).filter fun gw => inMonth s e gw).map
          fun gw => gwPosPts ci bi posOf ph picksOf gw Position.midfielder).sum ∧
      psc.forward_total =
        ((gwListI N).map fun gw => gwPosPts ci bi posOf ph picksOf gw Position.forward).sum ∧
      psc.forward_month =
        (((gwListI N).filter fun gw => inMonth s e gw).map
          fun gw => gwPosPts ci bi posOf ph picksOf gw Position.forward).sum ∧
      psc.bench_total = ((gwListI N).map fun gw => gwBenchPts ci ph picksOf gw).sum ∧
      psc.bench_month =
        (((gwListI N).filter fun gw => inMonth s e gw).map
          fun gw => gwBenchPts ci ph picksOf gw).sum ∧
      psc.goals_total = ((gwListI N).map fun gw => gwGoals ci bi ph picksOf gw).sum ∧
      psc.goals_month =
        (((gwListI N).filter fun gw => inMonth s e gw).map
          fun gw => gwGoals ci bi ph picksOf gw).sum ∧
      psc.assists_total = ((gwListI N).map fun gw => gwAssists ci bi ph picksOf gw).sum ∧
      psc.assists_month =
        (((gwListI N).filter fun gw => inMonth s e gw).map
          fun gw => gwAssists ci bi ph picksOf gw).sum ∧
      psc.expected_goals_total =
        round2 (((gwListI N).map fun gw => gwXg ci bi ph picksOf gw).sum) ∧
      psc.expected_goals_month =
        round2 ((((gwListI N).filter fun gw => inMonth s e gw).map
          fun gw => gwXg ci bi ph picksOf gw).sum) ∧
      psc.expected_assists_total =
        round2 (((gwListI N).map fun gw => gwXa ci bi ph picksOf gw).sum) ∧
      psc.expected_assists_month =
        round2 ((((gwListI N).filter fun gw => inMonth s e gw).map
          fun gw => gwXa ci bi ph picksOf gw).sum)) := by
  constructor
  · refine ⟨_, _, cbtLoop_eq s e ph picksOf (gwListI N) c0 cbtZero hcap,
      ?_, ?_, ?_, ?_, ?_, ?_⟩ <;> simp [cbtZero]
  · refine ⟨_, posManager_eq s e N ci bi posOf ph picksOf hlen,
      ?_, ?_, ?_, ?_, ?_, ?_, ?_, ?_, ?_, ?_, ?_, ?_, ?_, ?_, ?_, ?_, ?_, ?_⟩ <;>
      simp [roundFinal]

/-- Witness for claim C5: instantiation on the concrete two-gameweek inputs
with captain 5 each week. -/
theorem month_totals_subset_sums_witness :
    (∀ gw ∈ gwListI 2, ∃ p ∈ (w1picks gw).picks, p.is_captain = true) ∧
    (∀ gw ∈ gwListI 2, ∀ p ∈ (w1picks gw).picks,
      (gw - 1).toNat < (w1ph p.element).length) ∧
    ((∃ cEnd sc, cbtManager 1 1 2 w1ph w1picks none = Except.ok (cEnd, sc) ∧
      sc.captain_points_total =
        ((capFixtures w1ph w1picks (gwListI 2)).map fun f => f.total_points).sum ∧
      sc.captain_points_month =
        (((capFixtures w1ph w1picks (gwListI 2)).filter fun f => inMonth 1 1 f.round).map
          fun f => f.total_points).sum ∧
      sc.points_on_bench_total =
        ((gwListI 2).map fun gw => (w1picks gw).entry_history.points_on_bench).sum ∧
      sc.points_on_bench_month =
        (((gwListI 2).filter fun gw => inMonth 1 1 gw).map
          fun gw => (w1picks gw).entry_history.points_on_bench).sum ∧
      sc.number_of_transfers_total =
        ((gwListI 2).map fun gw => (w1picks gw).entry_history.event_transfers).sum ∧
      sc.number_of_transfers_month =
        (((gwListI 2).filter fun gw => inMonth 1 1 gw).map
          fun gw => (w1picks gw).entry_history.event_transfers).sum) ∧
    (∃ psc, posManager 1 1 2 true false wPosOf w1ph w1picks = Except.ok psc ∧
      psc.goalkeeper_total =
        ((gwListI 2).map fun gw => gwPosPts true false wPosOf w1ph w1picks gw Position.goalkeeper).sum ∧
      psc.goalkeeper_month =
        (((gwListI 2).filter fun gw => inMonth 1 1 gw).map
          fun gw => gwPosPts true false wPosOf w1ph w1picks gw Position.goalkeeper).sum ∧
      psc.defender_total =
        ((gwListI 2).map fun gw => gwPosPts true false wPosOf w1ph w1picks gw Position.defender).sum ∧
      psc.defender_month =
        (((gwListI 2).filter fun gw => inMonth 1 1 gw).map
          fun gw => gwPosPts true false wPosOf w1ph w1picks gw Position.defender).sum ∧
      psc.midfielder_total =
        ((gwListI 2).map fun gw => gwPosPts true false wPosOf w1ph w1picks gw Position.midfielder).sum ∧
      psc.midfielder_month =
        (((gwListI 2).filter fun gw => inMonth 1 1 gw).map
          fun gw => gwPosPts true false wPosOf w1ph w1picks gw Position.midfielder).sum ∧
      psc.forward_total =
        ((gwListI 2).map fun gw => gwPosPts true false wPosOf w1ph w1picks gw Position.forward).sum ∧
      psc.forward_month =
        (((gwListI 2).filter fun gw => inMonth 1 1 gw).map
          fun gw => gwPosPts true false wPosOf w1ph w1picks gw Position.forward).sum ∧
      psc.bench_total = ((gwListI 2).map fun gw => gwBenchPts true w1ph w1picks gw).sum ∧
      psc.bench_month =
        (((gwListI 2).filter fun gw => inMonth 1 1 gw).map
          fun gw => gwBenchPts true w1ph w1picks gw).sum ∧
      psc.goals_total = ((gwListI 2).map fun gw => gwGoals true false w1ph w1picks gw).sum ∧
      psc.goals_month =
        (((gwListI 2).filter fun gw => inMonth 1 1 gw).map
          fun gw => gwGoals true false w1ph w1picks gw).sum ∧
      psc.assists_total = ((gwListI 2).map fun gw => gwAssists true false w1ph w1picks gw).sum ∧
      psc.assists_month =
        (((gwListI 2).filter fun gw => inMonth 1 1 gw).map
          fun gw => gwAssists true false w1ph w1picks gw).sum ∧
      psc.expected_goals_total =
        round2 (((gwListI 2).map fun gw => gwXg true false w1ph w1picks gw).sum) ∧
      psc.expected_goals_month =
        round2 ((((gwListI 2).filter fun gw => inMonth 1 1 gw).map
          fun gw => gwXg true false w1ph w1picks gw).sum) ∧
      psc.expected_assists_total =
        round2 (((gwListI 2).map fun gw => gwXa true false w1ph w1picks gw).sum) ∧
      psc.expected_assists_month =
        round2 ((((gwListI 2).filter fun gw => inMonth 1 1 gw).map
          fun gw => gwXa true false w1ph w1picks gw).sum))) :=
  ⟨by decide, by decide,
    month_totals_subset_sums 1 1 2 w1ph w1picks none true false wPosOf
      (by decide) (by decide)⟩

/-- Claim C4 (amended): in the min/max points report, for a manager whose
history lists gameweeks `1..n` in increasing event order (so it contains the
event-1 entry first) and `1 ≤ start_gw_month ≤ end_gw_month`, the total
bounds are the min/max of `total_points` over all entries and the month
bounds are the min/max over the entries with event in
`[start_gw_month, end_gw_month]`; in particular the synthetic history
`[gw1=10, gw2=25, gw3=5]` with month range `[2, 3]` yields
`min_points_total = 5`, `max_points_total = 25`, `min_points_month = 5`,
`max_points_month = 25`. -/
theorem least_most_sorted_history_bounds (s e : Int) (tps : List Int)
    (hs1 : 1 ≤ s) (hse : s ≤ e) (hne : tps ≠ []) :
    leastMostManager s e (mkHist tps) = Except.ok
      { min_points_total := foldMin tps,
        max_points_total := foldMax tps,
        min_points_month := foldMin (windowVals s e (mkHist tps)),
        max_points_month := foldMax (windowVals s e (mkHist tps)) } :=
  leastMost_sorted s e hs1 hse tps hne

/-- Witness for claim C4 (amended): the synthetic history
`[gw1=10, gw2=25, gw3=5]` with month range `[2, 3]` yields exactly the
bounds the claim states. -/
theorem least_most_sorted_history_bounds_witness :
    ([10, 25, 5] : List Int) ≠ [] ∧ (1 : Int) ≤ 2 ∧ (2 : Int) ≤ 3 ∧
    leastMostManager 2 3 (mkHist [10, 25, 5]) =
      Except.ok ⟨some 5, some 25, some 5, some 25⟩ := by
  refine ⟨by decide, by decide, by decide, ?_⟩
  have h := least_most_sorted_history_bounds 2 3 [10, 25, 5]
    (by decide) (by decide) (by decide)
  rw [h]
  decide

/-- Counterexample for claim C4 as stated: a history that contains an
event-1 entry and an event-`start_gw_month` entry but lists an event-2 entry
first makes the computation raise the `None`-comparison `TypeError` instead
of producing the initialized-then-updated bounds the claim describes. -/
theorem least_most_unsorted_history_crash :
    leastMostManager 1 2 [⟨2, 5⟩, ⟨1, 10⟩] =
      Except.error "TypeError: comparison with None" ∧
    leastMostManager 1 2 [⟨2, 5⟩, ⟨1, 10⟩] ≠
      Except.ok ⟨some 5, some 10, some 5, some 10⟩ := by
  refine ⟨by rfl, by decide⟩
